import Mathlib

/-!
# Verification of the webhook → email pipeline

A shallow embedding, in Lean 4, of the repository's webhook receiver
(`pages/api/cal-webhook.ts`), ICS calendar-invite builder
(`lib/webhook-email/ics-builder.ts`), Postmark email wrapper
(`lib/webhook-email/postmark.ts`) and the symmetric-encryption helper of the
TOTP-setup endpoint.  Pure functions of the source become Lean functions;
machine integers become `Nat`/`Int` with explicit reduction modulo `2^32` or
`256` where the source's arithmetic wraps; fallible code returns `Except`.
Platform primitives the source calls (`JSON.parse`, `new Date`,
`toLocaleString`, `crypto.randomUUID`, `fetch`) are threaded as explicit
parameters, so "the handler never consults the parser" is stated as
independence from that parameter.  Node's `crypto` hashing and ciphering
(`createHmac("sha256")`, `createCipheriv("aes256")`) are embedded in full.
-/

/-! ## JavaScript string and byte primitives

Small models of the JavaScript builtins the source leans on: truthiness of
optional strings (`a || b`), UTF-8 encoding (`Buffer.from(s, "utf8")`),
lowercase hex (`digest("hex")`), base64 (`toString("base64")`), substring
search (`String.includes`), ASCII upper-casing and `\s+` replacement. -/

/-- JavaScript `a || b` on an optional string: `undefined` and the empty
string are falsy. -/
def jsOr (a : Option String) (b : String) : String :=
  match a with
  | none => b
  | some s => if s = "" then b else s

/-- JavaScript `a || b` where the fallback is again optional (used for
chained field lookups such as `payload.hostEmail || payload.organizer?.email`). -/
def jsOrOpt (a : Option String) (b : Option String) : Option String :=
  match a with
  | none => b
  | some s => if s = "" then b else some s

/-- Truthiness of an optional string: present and non-empty. -/
def jsTruthy (a : Option String) : Bool :=
  match a with
  | none => false
  | some s => s ≠ ""

/-- UTF-8 encoding of one scalar value (1–4 bytes), as `Buffer.from(·, "utf8")`
produces for each code point. -/
def utf8EncodeChar (c : Char) : List Nat :=
  let n := c.toNat
  if n < 128 then [n]
  else if n < 2048 then [192 + n / 64, 128 + n % 64]
  else if n < 65536 then [224 + n / 4096, 128 + (n / 64) % 64, 128 + n % 64]
  else [240 + n / 262144, 128 + (n / 4096) % 64, 128 + (n / 64) % 64, 128 + n % 64]

/-- UTF-8 bytes of a string (`Buffer.from(s, "utf8")`). -/
def utf8Bytes (s : String) : List Nat :=
  (s.data.map utf8EncodeChar).flatten

/-- One lowercase hex digit (0–15 → `0`..`9`, `a`..`f`). -/
def hexDigit (n : Nat) : Char :=
  if n < 10 then Char.ofNat (48 + n) else Char.ofNat (87 + n)

/-- Two lowercase hex digits of one byte, as Node's `digest("hex")` emits. -/
def hexByte (b : Nat) : List Char :=
  [hexDigit (b / 16), hexDigit (b % 16)]

/-- Lowercase hex string of a byte list (`Buffer.toString("hex")`). -/
def hexOfBytes (bs : List Nat) : String :=
  ⟨(bs.map hexByte).flatten⟩

/-! ## SHA-256 and HMAC-SHA256

A byte-level embedding of `crypto.createHmac("sha256", secret)
.update(body).digest("hex")` (FIPS 180-4 / RFC 2104).  Words are `Nat`
reduced modulo `2^32`. -/

/-- Reduce to a 32-bit word. -/
def w32 (x : Nat) : Nat := x % 4294967296

/-- Right-rotation of a 32-bit word by `n` places. -/
def rotr32 (n x : Nat) : Nat := w32 ((x >>> n) ||| (x <<< (32 - n)))

/-- The 64 SHA-256 round constants. -/
def sha256K : List Nat :=
  [1116352408, 1899447441, 3049323471, 3921009573, 961987163, 1508970993,
   2453635748, 2870763221, 3624381080, 310598401, 607225278, 1426881987,
   1925078388, 2162078206, 2614888103, 3248222580, 3835390401, 4022224774,
   264347078, 604807628, 770255983, 1249150122, 1555081692, 1996064986,
   2554220882, 2821834349, 2952996808, 3210313671, 3336571891, 3584528711,
   113926993, 338241895, 666307205, 773529912, 1294757372, 1396182291,
   1695183700, 1986661051, 2177026350, 2456956037, 2730485921, 2820302411,
   3259730800, 3345764771, 3516065817, 3600352804, 4094571909, 275423344,
   430227734, 506948616, 659060556, 883997877, 958139571, 1322822218,
   1537002063, 1747873779, 1955562222, 2024104815, 2227730452, 2361852424,
   2428436474, 2756734187, 3204031479, 3329325298]

/-- The 8 initial SHA-256 hash words. -/
def sha256Init : List Nat :=
  [1779033703, 3144134277, 1013904242, 2773480762,
   1359893119, 2600822924, 528734635, 1541459225]

/-- SHA-256 padding: append `0x80`, zeros to 56 mod 64, then the bit length
as 8 big-endian bytes. -/
def sha256Pad (msg : List Nat) : List Nat :=
  let L := msg.length
  let k := (64 - (L + 9) % 64) % 64
  let bitLen := 8 * L
  msg ++ [128] ++ List.replicate k 0 ++
    [w32 (bitLen >>> 56) % 256, (bitLen >>> 48) % 256, (bitLen >>> 40) % 256,
     (bitLen >>> 32) % 256, (bitLen >>> 24) % 256, (bitLen >>> 16) % 256,
     (bitLen >>> 8) % 256, bitLen % 256]

/-- Split a byte list into 64-byte chunks; the fuel argument only bounds the
recursion (any fuel at least the list length yields all chunks), keeping the
definition structurally recursive so the kernel can evaluate it. -/
def chunks64Fuel : Nat → List Nat → List (List Nat)
  | 0, _ => []
  | _ + 1, [] => []
  | fuel + 1, l => l.take 64 :: chunks64Fuel fuel (l.drop 64)

/-- Split a byte list into 64-byte chunks. -/
def chunks64 (l : List Nat) : List (List Nat) :=
  chunks64Fuel l.length l

/-- Big-endian 32-bit words from bytes, four at a time. -/
def bytesToWords : List Nat → List Nat
  | a :: b :: c :: d :: rest => (a <<< 24 ||| b <<< 16 ||| c <<< 8 ||| d) :: bytesToWords rest
  | _ => []

/-- Big-endian bytes of one 32-bit word. -/
def wordToBytes (x : Nat) : List Nat :=
  [(x >>> 24) % 256, (x >>> 16) % 256, (x >>> 8) % 256, x % 256]

/-- One message-schedule extension step: with the schedule so far, append
`w[n-16] + σ₀(w[n-15]) + w[n-7] + σ₁(w[n-2])` (mod `2^32`). -/
def sha256ExtendStep (w : List Nat) : List Nat :=
  let n := w.length
  let s0v := w.getD (n - 15) 0
  let s1v := w.getD (n - 2) 0
  let s0 := (rotr32 7 s0v) ^^^ (rotr32 18 s0v) ^^^ (s0v >>> 3)
  let s1 := (rotr32 17 s1v) ^^^ (rotr32 19 s1v) ^^^ (s1v >>> 10)
  w ++ [w32 (w.getD (n - 16) 0 + s0 + w.getD (n - 7) 0 + s1)]

/-- Run `k` extension steps (48 of them turn 16 words into 64). -/
def sha256Extend : Nat → List Nat → List Nat
  | 0, w => w
  | k + 1, w => sha256Extend k (sha256ExtendStep w)

/-- The eight working variables of the compression loop. -/
structure Sha256State where
  a : Nat
  b : Nat
  c : Nat
  d : Nat
  e : Nat
  f : Nat
  g : Nat
  h : Nat

/-- One compression round with round constant `k` and schedule word `w`. -/
def sha256Round (st : Sha256State) (kw : Nat × Nat) : Sha256State :=
  let S1 := (rotr32 6 st.e) ^^^ (rotr32 11 st.e) ^^^ (rotr32 25 st.e)
  let ch := (st.e &&& st.f) ^^^ ((st.e ^^^ 4294967295) &&& st.g)
  let temp1 := w32 (st.h + S1 + ch + kw.1 + kw.2)
  let S0 := (rotr32 2 st.a) ^^^ (rotr32 13 st.a) ^^^ (rotr32 22 st.a)
  let maj := (st.a &&& st.b) ^^^ (st.a &&& st.c) ^^^ (st.b &&& st.c)
  let temp2 := w32 (S0 + maj)
  { a := w32 (temp1 + temp2), b := st.a, c := st.b, d := st.c,
    e := w32 (st.d + temp1), f := st.e, g := st.f, h := st.g }

/-- Compress one 64-byte chunk into the running hash words. -/
def sha256Compress (hs : List Nat) (chunk : List Nat) : List Nat :=
  let w := sha256Extend 48 (bytesToWords chunk)
  let st0 : Sha256State :=
    { a := hs.getD 0 0, b := hs.getD 1 0, c := hs.getD 2 0, d := hs.getD 3 0,
      e := hs.getD 4 0, f := hs.getD 5 0, g := hs.getD 6 0, h := hs.getD 7 0 }
  let st := (sha256K.zip w).foldl sha256Round st0
  [w32 (hs.getD 0 0 + st.a), w32 (hs.getD 1 0 + st.b), w32 (hs.getD 2 0 + st.c),
   w32 (hs.getD 3 0 + st.d), w32 (hs.getD 4 0 + st.e), w32 (hs.getD 5 0 + st.f),
   w32 (hs.getD 6 0 + st.g), w32 (hs.getD 7 0 + st.h)]

/-- SHA-256 digest of a byte list, as 32 bytes. -/
def sha256 (msg : List Nat) : List Nat :=
  let hs := (chunks64 (sha256Pad msg)).foldl sha256Compress sha256Init
  (hs.map wordToBytes).flatten

/-- HMAC-SHA256 (RFC 2104) of a message under a key, as 32 bytes. -/
def hmacSha256 (key msg : List Nat) : List Nat :=
  let k0 := if key.length > 64 then sha256 key else key
  let kPad := k0 ++ List.replicate (64 - k0.length) 0
  let ipadK := kPad.map (· ^^^ 54)
  let opadK := kPad.map (· ^^^ 92)
  sha256 (opadK ++ sha256 (ipadK ++ msg))

/-- `crypto.createHmac("sha256", secret).update(rawBody).digest("hex")`:
the lowercase-hex HMAC-SHA256 of the raw body under the shared secret. -/
def hexHmacSha256 (secret rawBody : String) : String :=
  hexOfBytes (hmacSha256 (utf8Bytes secret) (utf8Bytes rawBody))

/-! ## Base64 (`Buffer.toString("base64")`, `Buffer.from(s, "base64")`) -/

/-- The standard base64 alphabet. -/
def base64Alphabet : List Char :=
  "ABCDEFGHIJKLMNOPQRSTUVWXYZabcdefghijklmnopqrstuvwxyz0123456789+/".data

/-- The base64 character of a 6-bit value. -/
def b64Char (n : Nat) : Char := base64Alphabet.getD n 'A'

/-- Base64-encode bytes three at a time, with `=` padding; fuel keeps the
recursion structural. -/
def base64EncodeFuel : Nat → List Nat → List Char
  | 0, _ => []
  | _ + 1, [] => []
  | _ + 1, [a] => [b64Char (a / 4), b64Char (a % 4 * 16), '=', '=']
  | _ + 1, [a, b] => [b64Char (a / 4), b64Char (a % 4 * 16 + b / 16), b64Char (b % 16 * 4), '=']
  | fuel + 1, a :: b :: c :: rest =>
    b64Char (a / 4) :: b64Char (a % 4 * 16 + b / 16) :: b64Char (b % 16 * 4 + c / 64) ::
      b64Char (c % 64) :: base64EncodeFuel fuel rest

/-- `Buffer.from(bytes).toString("base64")`. -/
def base64Encode (bs : List Nat) : String :=
  ⟨base64EncodeFuel bs.length bs⟩

/-- The 6-bit value of a base64 character; `none` for characters outside the
alphabet (Node's decoder skips those, `=` included). -/
def b64Val (c : Char) : Option Nat :=
  let n := c.toNat
  if 65 ≤ n ∧ n ≤ 90 then some (n - 65)
  else if 97 ≤ n ∧ n ≤ 122 then some (n - 97 + 26)
  else if 48 ≤ n ∧ n ≤ 57 then some (n - 48 + 52)
  else if c = '+' then some 62
  else if c = '/' then some 63
  else none

/-- Reassemble bytes from 6-bit values, four at a time; a trailing group of
two or three values yields one or two bytes, a lone value is dropped, as
Node's lenient base64 decoder behaves. -/
def base64DecodeVals : Nat → List Nat → List Nat
  | 0, _ => []
  | _ + 1, [a, b] => [a * 4 + b / 16]
  | _ + 1, [a, b, c] => [a * 4 + b / 16, b % 16 * 16 + c / 4]
  | fuel + 1, a :: b :: c :: d :: rest =>
    (a * 4 + b / 16) :: (b % 16 * 16 + c / 4) :: (c % 4 * 64 + d) :: base64DecodeVals fuel rest
  | _ + 1, _ => []

/-- `Buffer.from(s, "base64")`: decode leniently, ignoring non-alphabet
characters and padding. -/
def base64Decode (s : String) : List Nat :=
  let vals := s.data.filterMap b64Val
  base64DecodeVals vals.length vals

/-! ## JavaScript `Date`, UTC civil fields

A `Date` is its instant: milliseconds since the Unix epoch (so it carries no
offset — parsing the same instant written with any offset yields the same
number).  The `getUTC*` accessors recover proleptic-Gregorian civil fields
using the standard days-to-civil conversion. -/

/-- Days since the epoch of a millisecond instant (floor division). -/
def jsEpochDays (ms : Int) : Int := Int.fdiv ms 86400000

/-- Civil `(year, month 1–12, day)` of a count of days since 1970-01-01,
proleptic Gregorian. -/
def civilFromDays (z0 : Int) : Int × Int × Int :=
  let z := z0 + 719468
  let era : Int := Int.fdiv z 146097
  let doe : Nat := (z - era * 146097).toNat
  let yoe : Nat := (doe - doe / 1460 + doe / 36524 - doe / 146096) / 365
  let doy : Nat := doe - (365 * yoe + yoe / 4 - yoe / 100)
  let mp : Nat := (5 * doy + 2) / 153
  let d : Nat := doy - (153 * mp + 2) / 5 + 1
  let m : Nat := if mp < 10 then mp + 3 else mp - 9
  let y : Int := (yoe : Int) + era * 400
  (if m ≤ 2 then y + 1 else y, (m : Int), (d : Int))

/-- `Date.prototype.getUTCFullYear`. -/
def getUTCFullYear (ms : Int) : Int := (civilFromDays (jsEpochDays ms)).1

/-- `Date.prototype.getUTCMonth` (0-indexed, as in JavaScript). -/
def getUTCMonth (ms : Int) : Int := (civilFromDays (jsEpochDays ms)).2.1 - 1

/-- `Date.prototype.getUTCDate`. -/
def getUTCDate (ms : Int) : Int := (civilFromDays (jsEpochDays ms)).2.2

/-- `Date.prototype.getUTCHours`. -/
def getUTCHours (ms : Int) : Int := Int.fdiv (Int.fmod ms 86400000) 3600000

/-- `Date.prototype.getUTCMinutes`. -/
def getUTCMinutes (ms : Int) : Int := Int.fdiv (Int.fmod ms 3600000) 60000

/-- Days since 1970-01-01 of a civil `(year, month 1–12, day)`: the inverse
of `civilFromDays`, used only to write concrete instants readably. -/
def daysFromCivil (y0 m d : Int) : Int :=
  let y := if m ≤ 2 then y0 - 1 else y0
  let era : Int := Int.fdiv y 400
  let yoe : Nat := (y - era * 400).toNat
  let mp : Nat := (if m > 2 then m - 3 else m + 9).toNat
  let doy : Int := ((153 * mp + 2) / 5 : Nat) + d - 1
  let doe : Int := (yoe : Int) * 365 + (yoe / 4 : Nat) - (yoe / 100 : Nat) + doy
  era * 146097 + doe - 719468

/-- The millisecond instant of a UTC civil date-time (seconds zero). -/
def utcMillis (y m d h mi : Int) : Int :=
  daysFromCivil y m d * 86400000 + h * 3600000 + mi * 60000

/-! ## The ICS calendar-invite builder (`lib/webhook-email/ics-builder.ts`)

`Date` values are millisecond instants (`Int`), `EventStatus` and the method
are the source's string unions.  The `ics` npm library's `createEvent` is not
part of the repository; it is modelled below. -/

/-- A person as the builder receives one: `{ name?: string; email: string }`. -/
structure IcsPerson where
  name : Option String
  email : String
deriving DecidableEq, Repr

/-- The builder's input (`WebhookIcsParams` in the source).  `start`/`endTime`
are the two `Date` instants (the source field `end` is a Lean keyword, hence
`endTime`). -/
structure WebhookIcsParams where
  uid : String
  title : String
  description : Option String
  start : Int
  endTime : Int
  organizer : IcsPerson
  attendee : IcsPerson
  location : Option String
  sequence : Option Int
  status : String
  method : String
deriving DecidableEq, Repr

/-- `toDateArray`: the UTC civil components `[year, month (1-indexed), day,
hours, minutes]` of a `Date`, exactly the five `getUTC*` calls of the source. -/
def toDateArray (date : Int) : List Int :=
  [getUTCFullYear date, getUTCMonth date + 1, getUTCDate date,
   getUTCHours date, getUTCMinutes date]

/-- An attendee entry as handed to `createEvent`. -/
structure IcsAttendee where
  name : String
  email : String
  partstat : String
  role : String
  rsvp : Bool
deriving DecidableEq, Repr

/-- An organizer entry as handed to `createEvent`. -/
structure IcsOrganizer where
  name : String
  email : String
deriving DecidableEq, Repr

/-- The event-attribute record `buildIcsString` passes to `createEvent`,
field for field. -/
structure EventAttributes where
  uid : String
  sequence : Int
  start : List Int
  endTime : List Int
  startInputType : String
  productId : String
  title : String
  description : Option String
  organizer : IcsOrganizer
  attendees : List IcsAttendee
  location : Option String
  method : String
  status : String
  busyStatus : String
deriving DecidableEq, Repr

/-- The attribute record built inside `buildIcsString`: participation and
busy status derived from the lifecycle status (`CANCELLED` → `DECLINED`/`FREE`,
anything else → `ACCEPTED`/`BUSY`), dates through `toDateArray`, sequence
`params.sequence ?? 0`, names defaulted with `|| "Organizer"` / `|| "Attendee"`. -/
def toEventAttributes (params : WebhookIcsParams) : EventAttributes :=
  let partstat := if params.status = "CANCELLED" then "DECLINED" else "ACCEPTED"
  let busyStatus := if params.status = "CANCELLED" then "FREE" else "BUSY"
  { uid := params.uid,
    sequence := params.sequence.getD 0,
    start := toDateArray params.start,
    endTime := toDateArray params.endTime,
    startInputType := "utc",
    productId := "calcom/webhook-ics",
    title := params.title,
    description := params.description,
    organizer := { name := jsOr params.organizer.name "Organizer",
                   email := params.organizer.email },
    attendees := [{ name := jsOr params.attendee.name "Attendee",
                    email := params.attendee.email,
                    partstat := partstat,
                    role := "REQ-PARTICIPANT",
                    rsvp := true }],
    location := params.location,
    method := params.method,
    status := params.status,
    busyStatus := busyStatus }

/-- A well-formed mailbox for the purpose of the library's shape check:
non-empty and containing an `@`. -/
def icsEmailOk (e : String) : Bool :=
  e ≠ "" && e.data.contains '@'

/-- Serialization of an accepted event, always beginning with
`BEGIN:VCALENDAR`.  The precise line set mirrors what matters to the claims:
the document is a function of the attributes and is never empty. -/
def serializeEvent (attrs : EventAttributes) : String :=
  "BEGIN:VCALENDAR\r\nVERSION:2.0\r\nMETHOD:" ++ attrs.method ++
  "\r\nPRODID:" ++ attrs.productId ++
  "\r\nBEGIN:VEVENT\r\nUID:" ++ attrs.uid ++
  "\r\nSEQUENCE:" ++ toString attrs.sequence ++
  "\r\nSTATUS:" ++ attrs.status ++
  "\r\nSUMMARY:" ++ attrs.title ++
  "\r\nEND:VEVENT\r\nEND:VCALENDAR\r\n"

/-- Modelled from the spec: `createEvent` of the `ics` npm library is not in
the repository.  Per §4.2 the encoding step "reports a structural error
(e.g., invalid organizer/attendee shape)"; the model validates the shape of
the organizer and attendee mailboxes and otherwise serializes the event,
returning the library's `{ error?, value? }` pair. -/
def createEvent (attrs : EventAttributes) : Option String × Option String :=
  if icsEmailOk attrs.organizer.email = false then
    (some "invalid organizer", none)
  else if attrs.attendees.all (fun a => icsEmailOk a.email) = false then
    (some "invalid attendee", none)
  else
    (none, some (serializeEvent attrs))

/-- `buildIcsString`: build the attribute record, run `createEvent`, throw the
error if one is reported (`if (error) throw error`), otherwise return
`value || ""`. -/
def buildIcsString (params : WebhookIcsParams) : Except String String :=
  let res := createEvent (toEventAttributes params)
  match res.1 with
  | some e => Except.error e
  | none => Except.ok (jsOr res.2 "")

/-! ## The Postmark wrapper (`lib/webhook-email/postmark.ts`)

The outbound `fetch` to `api.postmarkapp.com` is the process boundary: the
model returns the message object the wrapper would post (or the thrown error),
which is everything the wrapper itself computes. -/

/-- One attachment of a Postmark message (`Name`/`Content`/`ContentType`). -/
structure PostmarkAttachment where
  name : String
  content : String
  contentType : String
deriving DecidableEq, Repr

/-- `SendEmailParams` (the source fields `from` and `to` are Lean keywords,
hence `fromAddr`/`toAddr`). -/
structure SendEmailParams where
  fromAddr : String
  toAddr : String
  subject : String
  htmlBody : String
  textBody : Option String
  icsContent : Option String
  icsMethod : Option String
deriving DecidableEq, Repr

/-- The message object posted to Postmark (`TextBody` only when the optional
text body is truthy, `Attachments` only when at least one was pushed). -/
structure PostmarkMessage where
  fromAddr : String
  toAddr : String
  subject : String
  htmlBody : String
  messageStream : String
  textBody : Option String
  attachments : List PostmarkAttachment
deriving DecidableEq, Repr

/-- `sendPostmarkEmail`: throw when `POSTMARK_SERVER_API_TOKEN` is not truthy;
otherwise, when `params.icsContent` is truthy, push one `invite.ics`
attachment holding the base64 of its UTF-8 bytes with content type
`text/calendar; method=<icsMethod || "REQUEST">; charset="utf-8"`, and
return the assembled message. -/
def sendPostmarkEmail (token : Option String) (params : SendEmailParams) :
    Except String PostmarkMessage :=
  if jsTruthy token = false then
    Except.error "Missing POSTMARK_SERVER_API_TOKEN environment variable"
  else
    let attachments : List PostmarkAttachment :=
      if jsTruthy params.icsContent then
        let method := jsOr params.icsMethod "REQUEST"
        [{ name := "invite.ics",
           content := base64Encode (utf8Bytes (params.icsContent.getD "")),
           contentType := "text/calendar; method=" ++ method ++ "; charset=\"utf-8\"" }]
      else []
    Except.ok
      { fromAddr := params.fromAddr,
        toAddr := params.toAddr,
        subject := params.subject,
        htmlBody := params.htmlBody,
        messageStream := "outbound",
        textBody := if jsTruthy params.textBody then params.textBody else none,
        attachments := attachments }

/-! ## The webhook receiver (`pages/api/cal-webhook.ts`)

The handler is embedded as a pure function of the request, the three
environment values it reads, and a `Platform` record holding the JavaScript
builtins it calls (`JSON.parse`, `new Date`, `toLocaleString`,
`crypto.randomUUID`).  Its result carries the HTTP status, the response body
and the list of effects performed (ICS documents built, email messages
submitted), in order. -/

/-- JavaScript `\s`: the whitespace class of the trigger-normalizing regex. -/
def jsIsWs (c : Char) : Bool :=
  c = ' ' || c = '\t' || c = '\n' || c.toNat = 11 || c.toNat = 12 || c = '\r' ||
  c.toNat = 160 || c.toNat = 0x1680 || (0x2000 ≤ c.toNat && c.toNat ≤ 0x200a) ||
  c.toNat = 0x2028 || c.toNat = 0x2029 || c.toNat = 0x202f || c.toNat = 0x205f ||
  c.toNat = 0x3000 || c.toNat = 0xfeff

/-- `replace(/\s+/g, "_")`: each maximal whitespace run becomes one
underscore; the fuel only bounds the recursion (the list length suffices). -/
def replaceWsFuel : Nat → List Char → List Char
  | 0, _ => []
  | _ + 1, [] => []
  | fuel + 1, c :: rest =>
    if jsIsWs c then '_' :: replaceWsFuel fuel (rest.dropWhile jsIsWs)
    else c :: replaceWsFuel fuel rest

/-- Upper-case (ASCII, which covers every trigger string the upstream sends)
and replace whitespace runs with underscores: the `t` of `normalizeTrigger`. -/
def normTriggerText (s : String) : String :=
  let up := s.data.map Char.toUpper
  ⟨replaceWsFuel up.length up⟩

/-- `String.prototype.includes`: substring search. -/
def strIncludes (s pat : String) : Bool :=
  let rec go : List Char → Bool
    | [] => pat.data.isPrefixOf []
    | c :: rest => pat.data.isPrefixOf (c :: rest) || go rest
  go s.data

/-- The classification of a trigger value. -/
inductive TriggerType where
  | BOOKING_CREATED
  | BOOKING_RESCHEDULED
  | BOOKING_CANCELLED
  | unknown
deriving DecidableEq, Repr

/-- `normalizeTrigger`: falsy input is unknown; otherwise upper-case, replace
whitespace with underscores, and test `includes("CREATED")`,
`includes("RESCHEDULED")`, `includes("CANCEL")` in that order. -/
def normalizeTrigger (trigger : Option String) : TriggerType :=
  if jsTruthy trigger = false then .unknown
  else
    let t := normTriggerText (trigger.getD "")
    if strIncludes t "CREATED" || t = "BOOKING_CREATED" then .BOOKING_CREATED
    else if strIncludes t "RESCHEDULED" || t = "BOOKING_RESCHEDULED" then .BOOKING_RESCHEDULED
    else if strIncludes t "CANCEL" || t = "BOOKING_CANCELLED" then .BOOKING_CANCELLED
    else .unknown

/-- The module's `timingSafeEqual` wrapper: `false` when the UTF-8 buffers
differ in length, otherwise `crypto.timingSafeEqual`, which holds exactly when
the buffers are equal. -/
def timingSafeEqual (a b : String) : Bool :=
  if (utf8Bytes a).length ≠ (utf8Bytes b).length then false
  else utf8Bytes a == utf8Bytes b

/-- JavaScript `a || b` on an optional number: `undefined` and `0` are falsy. -/
def jsOrInt (a : Option Int) (b : Int) : Int :=
  match a with
  | none => b
  | some n => if n = 0 then b else n

/-- `String(payload.bookingId)` for `bookingId?: string | number`: the string
itself, the decimal rendering of the number, or the literal `"undefined"`. -/
def jsStringOfBookingId : Option (String ⊕ Int) → String
  | none => "undefined"
  | some (Sum.inl s) => s
  | some (Sum.inr n) => toString n

/-- The booking fields of a webhook delivery (`BookingPayload` in the source);
every field optional, `bookingId` either a string or a number. -/
structure BookingPayload where
  title : Option String
  startTime : Option String
  endTime : Option String
  attendees : Option (List IcsPerson)
  attendeesList : Option (List IcsPerson)
  organizer : Option IcsPerson
  hostEmail : Option String
  hostName : Option String
  organizerName : Option String
  location : Option String
  meetingUrl : Option String
  videoCallUrl : Option String
  conferenceUrl : Option String
  bookingUid : Option String
  uid : Option String
  bookingId : Option (String ⊕ Int)
  description : Option String
  bookingUrl : Option String
  rescheduleUrl : Option String
  cancelUrl : Option String
  iCalSequence : Option Int
  iCalUID : Option String
deriving DecidableEq, Repr

/-- The payload of `BookingPayload` with every field absent. -/
def emptyBooking : BookingPayload :=
  { title := none, startTime := none, endTime := none, attendees := none,
    attendeesList := none, organizer := none, hostEmail := none,
    hostName := none, organizerName := none, location := none,
    meetingUrl := none, videoCallUrl := none, conferenceUrl := none,
    bookingUid := none, uid := none, bookingId := none, description := none,
    bookingUrl := none, rescheduleUrl := none, cancelUrl := none,
    iCalSequence := none, iCalUID := none }

/-- A parsed webhook delivery (`WebhookPayload` in the source): the trigger
under one of three keys, an optional nested `payload`, and — through the TS
intersection type — the booking fields flattened at top level (`self`). -/
structure WebhookPayload where
  triggerEvent : Option String
  event : Option String
  type : Option String
  payload : Option BookingPayload
  self : BookingPayload
deriving DecidableEq, Repr

/-- `buildLocationHtml`. -/
def buildLocationHtml (location : Option String) : String :=
  if jsTruthy location = false then ""
  else
    "<p style=\"margin: 8px 0; color: #4b5563;\"><strong>Where:</strong> <a href=\"" ++
      location.getD "" ++ "\" style=\"color: #2563eb;\">" ++ location.getD "" ++ "</a></p>"

/-- `buildCancelLinkHtml`. -/
def buildCancelLinkHtml (cancelUrl : Option String) : String :=
  if jsTruthy cancelUrl = false then ""
  else
    "<p style=\"margin-top: 24px;\"><a href=\"" ++ cancelUrl.getD "" ++
      "\" style=\"color: #dc2626; font-size: 14px;\">Need to cancel?</a></p>"

/-- `buildRescheduleLinkHtml`. -/
def buildRescheduleLinkHtml (rescheduleUrl : Option String) : String :=
  if jsTruthy rescheduleUrl = false then ""
  else
    "<p style=\"margin-top: 24px;\"><a href=\"" ++ rescheduleUrl.getD "" ++
      "\" style=\"color: #2563eb;\">Book a new time</a></p>"

/-- The JSON bodies the route responds with: `{error}`, `{ok, trigger}`,
`{ok, ignored}` (carrying the raw unrecognized trigger value) and
`{ok, skipped}` (carrying the skip reason). -/
inductive ResBody where
  | errorMsg (msg : String)
  | okTrigger (trigger : TriggerType)
  | ignoredTrig (trigger : Option String)
  | skipped (reason : String)
deriving DecidableEq, Repr

/-- An observable effect of one request: an ICS document built, or an email
message submitted to the provider. -/
inductive Effect where
  | builtIcs (doc : String)
  | sentEmail (msg : PostmarkMessage)
deriving DecidableEq, Repr

/-- The JavaScript builtins the route calls, threaded explicitly:
`JSON.parse` (`none` models a thrown `SyntaxError`), `new Date` on a present
string field, `toLocaleString` via `formatDateTime`, and `crypto.randomUUID`. -/
structure Platform where
  parseJson : String → Option WebhookPayload
  newDate : String → Int
  formatDateTime : Int → String
  randomUUID : String

/-- The ICS input record built by `handleBookingCreated`: the snapshot's
sequence unmodified, status `CONFIRMED`, method `REQUEST`. -/
def createdIcsParams (payload : BookingPayload) (startTime endTime : Int)
    (attendee : IcsPerson) (hostEmail : String) (hostName : Option String)
    (location : String) (bookingUid : String) (sequence : Int) : WebhookIcsParams :=
  { uid := bookingUid,
    title := jsOr payload.title "Meeting",
    description := payload.description,
    start := startTime,
    endTime := endTime,
    organizer := { name := hostName, email := hostEmail },
    attendee := { name := attendee.name, email := attendee.email },
    location := some location,
    sequence := some sequence,
    status := "CONFIRMED",
    method := "REQUEST" }

/-- The ICS input record built by `handleBookingRescheduled`: the snapshot's
sequence plus one, status `CONFIRMED`, method `REQUEST`. -/
def rescheduledIcsParams (payload : BookingPayload) (startTime endTime : Int)
    (attendee : IcsPerson) (hostEmail : String) (hostName : Option String)
    (location : String) (bookingUid : String) (sequence : Int) : WebhookIcsParams :=
  { uid := bookingUid,
    title := jsOr payload.title "Meeting",
    description := payload.description,
    start := startTime,
    endTime := endTime,
    organizer := { name := hostName, email := hostEmail },
    attendee := { name := attendee.name, email := attendee.email },
    location := some location,
    sequence := some (sequence + 1),
    status := "CONFIRMED",
    method := "REQUEST" }

/-- The ICS input record built by `handleBookingCancelled`: the snapshot's
sequence plus one, status `CANCELLED`, method `CANCEL`. -/
def cancelledIcsParams (payload : BookingPayload) (startTime endTime : Int)
    (attendee : IcsPerson) (hostEmail : String) (hostName : Option String)
    (location : String) (bookingUid : String) (sequence : Int) : WebhookIcsParams :=
  { uid := bookingUid,
    title := jsOr payload.title "Meeting",
    description := payload.description,
    start := startTime,
    endTime := endTime,
    organizer := { name := hostName, email := hostEmail },
    attendee := { name := attendee.name, email := attendee.email },
    location := some location,
    sequence := some (sequence + 1),
    status := "CANCELLED",
    method := "CANCEL" }

/-- The confirmation HTML of `handleBookingCreated` (the template literal's
text, with interpolations spliced; indentation whitespace not reproduced). -/
def createdHtmlBody (fmt : Int → String) (payload : BookingPayload)
    (startTime : Int) (hostEmail : String) (hostName : Option String)
    (location : String) : String :=
  "\n<div style=\"font-family: -apple-system, BlinkMacSystemFont, \x27Segoe UI\x27, Roboto, sans-serif; max-width: 600px; margin: 0 auto;\">\n" ++
  "<h2 style=\"color: #111827;\">Your meeting is confirmed</h2>\n" ++
  "<div style=\"background: #f3f4f6; border-radius: 8px; padding: 20px; margin: 20px 0;\">\n" ++
  "<h3 style=\"margin: 0 0 16px 0; color: #111827;\">" ++ jsOr payload.title "Meeting" ++ "</h3>\n" ++
  "<p style=\"margin: 8px 0; color: #4b5563;\">\n<strong>When:</strong> " ++ fmt startTime ++ "\n</p>\n" ++
  buildLocationHtml (some location) ++ "\n" ++
  "<p style=\"margin: 8px 0; color: #4b5563;\">\n<strong>With:</strong> " ++ jsOr hostName hostEmail ++ "\n</p>\n" ++
  "</div>\n" ++
  "<p style=\"color: #6b7280; font-size: 14px;\">\nA calendar invite is attached to this email. Add it to your calendar to receive reminders.\n</p>\n" ++
  buildCancelLinkHtml payload.cancelUrl ++ "\n</div>\n"

/-- The reschedule HTML of `handleBookingRescheduled`. -/
def rescheduledHtmlBody (fmt : Int → String) (payload : BookingPayload)
    (startTime : Int) (hostEmail : String) (hostName : Option String)
    (location : String) : String :=
  "\n<div style=\"font-family: -apple-system, BlinkMacSystemFont, \x27Segoe UI\x27, Roboto, sans-serif; max-width: 600px; margin: 0 auto;\">\n" ++
  "<h2 style=\"color: #111827;\">Your meeting has been rescheduled</h2>\n" ++
  "<div style=\"background: #fef3c7; border-radius: 8px; padding: 20px; margin: 20px 0;\">\n" ++
  "<h3 style=\"margin: 0 0 16px 0; color: #111827;\">" ++ jsOr payload.title "Meeting" ++ "</h3>\n" ++
  "<p style=\"margin: 8px 0; color: #4b5563;\">\n<strong>New time:</strong> " ++ fmt startTime ++ "\n</p>\n" ++
  buildLocationHtml (some location) ++ "\n" ++
  "<p style=\"margin: 8px 0; color: #4b5563;\">\n<strong>With:</strong> " ++ jsOr hostName hostEmail ++ "\n</p>\n" ++
  "</div>\n" ++
  "<p style=\"color: #6b7280; font-size: 14px;\">\nAn updated calendar invite is attached. Please update your calendar.\n</p>\n" ++
  buildCancelLinkHtml payload.cancelUrl ++ "\n</div>\n"

/-- The cancellation HTML of `handleBookingCancelled`. -/
def cancelledHtmlBody (fmt : Int → String) (payload : BookingPayload)
    (startTime : Int) (hostEmail : String) (hostName : Option String) : String :=
  "\n<div style=\"font-family: -apple-system, BlinkMacSystemFont, \x27Segoe UI\x27, Roboto, sans-serif; max-width: 600px; margin: 0 auto;\">\n" ++
  "<h2 style=\"color: #dc2626;\">Your meeting has been cancelled</h2>\n" ++
  "<div style=\"background: #fee2e2; border-radius: 8px; padding: 20px; margin: 20px 0;\">\n" ++
  "<h3 style=\"margin: 0 0 16px 0; color: #111827; text-decoration: line-through;\">" ++ jsOr payload.title "Meeting" ++ "</h3>\n" ++
  "<p style=\"margin: 8px 0; color: #4b5563;\">\n<strong>Was scheduled for:</strong> " ++ fmt startTime ++ "\n</p>\n" ++
  "<p style=\"margin: 8px 0; color: #4b5563;\">\n<strong>With:</strong> " ++ jsOr hostName hostEmail ++ "\n</p>\n" ++
  "</div>\n" ++
  "<p style=\"color: #6b7280; font-size: 14px;\">\nA cancellation notice is attached. The event should be automatically removed from your calendar.\n</p>\n" ++
  buildRescheduleLinkHtml payload.rescheduleUrl ++ "\n</div>\n"

/-- `handleBookingCreated`: build the invite (sequence unmodified, status
`CONFIRMED`, method `REQUEST`), render the confirmation HTML, send one email
with the invite attached.  Returns the effects performed, and the thrown
error when the builder or the send throws. -/
def handleBookingCreated (token : Option String) (fmt : Int → String)
    (payload : BookingPayload) (startTime endTime : Int) (attendee : IcsPerson)
    (hostEmail : String) (hostName : Option String) (location : String)
    (bookingUid : String) (sequence : Int) (fromAddr : String) :
    List Effect × Except String Unit :=
  match buildIcsString (createdIcsParams payload startTime endTime attendee
      hostEmail hostName location bookingUid sequence) with
  | Except.error e => ([], Except.error e)
  | Except.ok icsContent =>
    match sendPostmarkEmail token
        { fromAddr := fromAddr,
          toAddr := attendee.email,
          subject := "Confirmed: " ++ jsOr payload.title "Meeting",
          htmlBody := createdHtmlBody fmt payload startTime hostEmail hostName location,
          textBody := none,
          icsContent := some icsContent,
          icsMethod := some "REQUEST" } with
    | Except.error e => ([Effect.builtIcs icsContent], Except.error e)
    | Except.ok msg => ([Effect.builtIcs icsContent, Effect.sentEmail msg], Except.ok ())

/-- `handleBookingRescheduled`: as for created, but sequence plus one and the
reschedule HTML/subject. -/
def handleBookingRescheduled (token : Option String) (fmt : Int → String)
    (payload : BookingPayload) (startTime endTime : Int) (attendee : IcsPerson)
    (hostEmail : String) (hostName : Option String) (location : String)
    (bookingUid : String) (sequence : Int) (fromAddr : String) :
    List Effect × Except String Unit :=
  match buildIcsString (rescheduledIcsParams payload startTime endTime attendee
      hostEmail hostName location bookingUid sequence) with
  | Except.error e => ([], Except.error e)
  | Except.ok icsContent =>
    match sendPostmarkEmail token
        { fromAddr := fromAddr,
          toAddr := attendee.email,
          subject := "Rescheduled: " ++ jsOr payload.title "Meeting",
          htmlBody := rescheduledHtmlBody fmt payload startTime hostEmail hostName location,
          textBody := none,
          icsContent := some icsContent,
          icsMethod := some "REQUEST" } with
    | Except.error e => ([Effect.builtIcs icsContent], Except.error e)
    | Except.ok msg => ([Effect.builtIcs icsContent, Effect.sentEmail msg], Except.ok ())

/-- `handleBookingCancelled`: sequence plus one, status `CANCELLED`, method
`CANCEL`, the cancellation HTML/subject. -/
def handleBookingCancelled (token : Option String) (fmt : Int → String)
    (payload : BookingPayload) (startTime endTime : Int) (attendee : IcsPerson)
    (hostEmail : String) (hostName : Option String) (location : String)
    (bookingUid : String) (sequence : Int) (fromAddr : String) :
    List Effect × Except String Unit :=
  match buildIcsString (cancelledIcsParams payload startTime endTime attendee
      hostEmail hostName location bookingUid sequence) with
  | Except.error e => ([], Except.error e)
  | Except.ok icsContent =>
    match sendPostmarkEmail token
        { fromAddr := fromAddr,
          toAddr := attendee.email,
          subject := "Cancelled: " ++ jsOr payload.title "Meeting",
          htmlBody := cancelledHtmlBody fmt payload startTime hostEmail hostName,
          textBody := none,
          icsContent := some icsContent,
          icsMethod := some "CANCEL" } with
    | Except.error e => ([Effect.builtIcs icsContent], Except.error e)
    | Except.ok msg => ([Effect.builtIcs icsContent, Effect.sentEmail msg], Except.ok ())

/-- The booking-identifier extraction chain of the handler:
`payload.iCalUID || payload.bookingUid || payload.uid ||
String(payload.bookingId) || crypto.randomUUID()`, with the random UUID the
platform would have produced passed explicitly. -/
def extractBookingUid (payload : BookingPayload) (randomUUID : String) : String :=
  jsOr payload.iCalUID (jsOr payload.bookingUid
    (jsOr payload.uid (jsOr (some (jsStringOfBookingId payload.bookingId)) randomUUID)))

/-- The three environment values the route and the Postmark wrapper read. -/
structure Env where
  calWebhookSecret : Option String
  postmarkFromEmail : Option String
  postmarkServerApiToken : Option String
deriving DecidableEq, Repr

/-- One inbound HTTP request: its method, the `x-cal-signature-256` header,
and the raw body the route reads before any parsing. -/
structure WebhookRequest where
  method : String
  sigHeader : Option String
  rawBody : String
deriving DecidableEq, Repr

/-- What one request produced: HTTP status, response body, effects in order. -/
structure HandlerResult where
  status : Nat
  body : ResBody
  effects : List Effect
deriving DecidableEq, Repr

/-- The post-authentication stage of the handler, from trigger classification
onwards: field extraction with the source's fallback chains and skip
responses, the `POSTMARK_FROM_EMAIL` gate, dispatch to the per-trigger
handler, and the final 200/500.  (Split out of `handler` at the point where
the parsed event exists, purely so each stage can be reasoned about; the
composition in `handler` below is the source's single function.) -/
def handlerProcess (pf : Platform) (env : Env) (event : WebhookPayload) : HandlerResult :=
  let triggerStr := jsOrOpt event.triggerEvent (jsOrOpt event.event event.type)
  let trigger := normalizeTrigger triggerStr
  if trigger = TriggerType.unknown then ⟨200, ResBody.ignoredTrig triggerStr, []⟩
  else
    let payload := event.payload.getD event.self
    let startTime : Option Int :=
      if jsTruthy payload.startTime then some (pf.newDate (payload.startTime.getD "")) else none
    let endTime : Option Int :=
      if jsTruthy payload.endTime then some (pf.newDate (payload.endTime.getD "")) else none
    match startTime, endTime with
    | none, _ => ⟨200, ResBody.skipped "missing start/end time", []⟩
    | _, none => ⟨200, ResBody.skipped "missing start/end time", []⟩
    | some st, some et =>
      let attendees := payload.attendees.getD (payload.attendeesList.getD [])
      match attendees.head? with
      | none => ⟨200, ResBody.skipped "no attendee email", []⟩
      | some attendee =>
        if attendee.email = "" then ⟨200, ResBody.skipped "no attendee email", []⟩
        else
          let hostEmailOpt := jsOrOpt payload.hostEmail (payload.organizer.map IcsPerson.email)
          let hostName := jsOrOpt payload.organizerName
            (jsOrOpt payload.hostName (payload.organizer.bind IcsPerson.name))
          if jsTruthy hostEmailOpt = false then ⟨200, ResBody.skipped "no host email", []⟩
          else
            let hostEmail := hostEmailOpt.getD ""
            let location := jsOr payload.location (jsOr payload.meetingUrl
              (jsOr payload.videoCallUrl (jsOr payload.conferenceUrl "")))
            let bookingUid := extractBookingUid payload pf.randomUUID
            let sequence := jsOrInt payload.iCalSequence 0
            if jsTruthy env.postmarkFromEmail = false then
              ⟨500, ResBody.errorMsg "Server configuration error", []⟩
            else
              let fromAddr := env.postmarkFromEmail.getD ""
              let token := env.postmarkServerApiToken
              let run : List Effect × Except String Unit :=
                if trigger = TriggerType.BOOKING_CREATED then
                  handleBookingCreated token pf.formatDateTime payload st et attendee
                    hostEmail hostName location bookingUid sequence fromAddr
                else if trigger = TriggerType.BOOKING_RESCHEDULED then
                  handleBookingRescheduled token pf.formatDateTime payload st et attendee
                    hostEmail hostName location bookingUid sequence fromAddr
                else if trigger = TriggerType.BOOKING_CANCELLED then
                  handleBookingCancelled token pf.formatDateTime payload st et attendee
                    hostEmail hostName location bookingUid sequence fromAddr
                else ([], Except.ok ())
              match run.2 with
              | Except.ok _ => ⟨200, ResBody.okTrigger trigger, run.1⟩
              | Except.error _ => ⟨500, ResBody.errorMsg "Failed to process webhook", run.1⟩
/-- The handler, end to end: method gate, secret gate, signature check over
the raw body, JSON parse, then `handlerProcess`. -/
def handler (pf : Platform) (env : Env) (req : WebhookRequest) : HandlerResult :=
  if req.method ≠ "POST" then ⟨405, ResBody.errorMsg "Method Not Allowed", []⟩
  else if jsTruthy env.calWebhookSecret = false then
    ⟨500, ResBody.errorMsg "Server configuration error", []⟩
  else
    let secret := env.calWebhookSecret.getD ""
    let receivedSig := jsOr req.sigHeader ""
    let computedSig := hexHmacSha256 secret req.rawBody
    if receivedSig = "" || timingSafeEqual receivedSig computedSig = false then
      ⟨401, ResBody.errorMsg "Invalid signature", []⟩
    else
      match pf.parseJson req.rawBody with
      | none => ⟨400, ResBody.errorMsg "Invalid JSON", []⟩
      | some event => handlerProcess pf env event

/-- Decode UTF-8 bytes back to characters, as `Buffer.toString("utf8")` does
on well-formed input; the fuel (one unit per character) keeps the recursion
structural. -/
def utf8DecodeFuel : Nat → List Nat → List Char
  | 0, _ => []
  | _ + 1, [] => []
  | fuel + 1, b :: rest =>
    if b < 128 then Char.ofNat b :: utf8DecodeFuel fuel rest
    else if b < 224 then
      Char.ofNat ((b - 192) * 64 + (rest.headD 0 - 128)) ::
        utf8DecodeFuel fuel (rest.drop 1)
    else if b < 240 then
      Char.ofNat ((b - 224) * 4096 + (rest.headD 0 - 128) * 64 +
          ((rest.drop 1).headD 0 - 128)) ::
        utf8DecodeFuel fuel (rest.drop 2)
    else
      Char.ofNat ((b - 240) * 262144 + (rest.headD 0 - 128) * 4096 +
          ((rest.drop 1).headD 0 - 128) * 64 + ((rest.drop 2).headD 0 - 128)) ::
        utf8DecodeFuel fuel (rest.drop 3)

/-- `Buffer.from(bytes).toString("utf8")` on well-formed input. -/
def utf8ToString (bs : List Nat) : String :=
  ⟨utf8DecodeFuel bs.length bs⟩

/-- A cancelled-lifecycle builder input on the instants of the specification's
example. -/
def sampleCancelledParams : WebhookIcsParams :=
  { uid := "u1", title := "Call", description := none,
    start := utcMillis 2024 1 1 15 0, endTime := utcMillis 2024 1 1 15 30,
    organizer := { name := some "Org", email := "org@example.com" },
    attendee := { name := some "Att", email := "att@example.com" },
    location := none, sequence := some 0, status := "CANCELLED", method := "CANCEL" }

/-- A builder input whose organizer mailbox is malformed (no `@`). -/
def badOrganizerParams : WebhookIcsParams :=
  { sampleCancelledParams with
    organizer := { name := none, email := "not-a-mailbox" }, status := "CONFIRMED",
    method := "REQUEST" }

/-- A send call carrying a calendar document and no explicit method. -/
def sampleSendParams : SendEmailParams :=
  { fromAddr := "noreply@example.com", toAddr := "att@example.com",
    subject := "Confirmed: Call", htmlBody := "<p>hi</p>", textBody := none,
    icsContent := some "BEGIN:VCALENDAR", icsMethod := none }

/-- A platform record for concrete instances: a parser that accepts nothing,
and constant stand-ins for the remaining builtins. -/
def trivialPlatform : Platform :=
  { parseJson := fun _ => none, newDate := fun _ => 0,
    formatDateTime := fun _ => "", randomUUID := "" }

/-- The parsed event of the C4 witness: recognized trigger, start and end
present, but no attendee list at all. -/
def c4Event : WebhookPayload :=
  { triggerEvent := some "BOOKING_CREATED", event := none, type := none,
    payload := none,
    self := { emptyBooking with
      startTime := some "2024-01-01T15:00:00Z",
      endTime := some "2024-01-01T15:30:00Z" } }

/-- The raw body the C4 witness signs and parses. -/
def c4Body : String :=
  "\x7b\"triggerEvent\":\"BOOKING_CREATED\",\"startTime\":\"2024-01-01T15:00:00Z\",\"endTime\":\"2024-01-01T15:30:00Z\"\x7d"

/-- A platform whose parser accepts exactly the C4 witness body. -/
def c4Platform : Platform :=
  { parseJson := fun s => if s = c4Body then some c4Event else none,
    newDate := fun _ => 1704121200000, formatDateTime := fun _ => "",
    randomUUID := "" }

/-- The parsed event of the C6 counterexample: an unrecognized trigger. -/
def c6Event : WebhookPayload :=
  { triggerEvent := some "PING", event := none, type := none,
    payload := none, self := emptyBooking }

/-- The raw body the C6 counterexample signs and parses. -/
def c6Body : String := "\x7b\"triggerEvent\":\"PING\"\x7d"

/-- A platform whose parser accepts exactly the C6 counterexample body. -/
def c6Platform : Platform :=
  { parseJson := fun s => if s = c6Body then some c6Event else none,
    newDate := fun _ => 0, formatDateTime := fun _ => "", randomUUID := "" }

/-! ## AES-256-CBC (`crypto.createCipheriv("aes256", key, iv)`)

The symmetric-encryption helper of the TOTP-setup route delegates to Node's
`aes256` cipher — AES-256 in CBC mode with PKCS#7 padding (FIPS 197 /
SP 800-38A).  The cipher is embedded byte-wise: a block is a 16-byte list in
AES column order, a round key likewise. -/

/-- Multiplication by `x` in GF(2⁸) modulo `x⁸+x⁴+x³+x+1` (`0x11b`). -/
def xtime (b : Nat) : Nat :=
  if b < 128 then 2 * b else (2 * b) ^^^ 283

/-- GF(2⁸) product by square-and-add over the bits of the second factor. -/
def gmulFuel : Nat → Nat → Nat → Nat
  | 0, _, _ => 0
  | k + 1, a, b => (if b % 2 = 1 then a else 0) ^^^ gmulFuel k (xtime a) (b / 2)

/-- GF(2⁸) multiplication of two bytes. -/
def gmul (a b : Nat) : Nat := gmulFuel 8 a b
/-- The AES S-box (FIPS 197). -/
def sboxTable : List Nat :=
  [0x63, 0x7c, 0x77, 0x7b, 0xf2, 0x6b, 0x6f, 0xc5,
   0x30, 0x01, 0x67, 0x2b, 0xfe, 0xd7, 0xab, 0x76,
   0xca, 0x82, 0xc9, 0x7d, 0xfa, 0x59, 0x47, 0xf0,
   0xad, 0xd4, 0xa2, 0xaf, 0x9c, 0xa4, 0x72, 0xc0,
   0xb7, 0xfd, 0x93, 0x26, 0x36, 0x3f, 0xf7, 0xcc,
   0x34, 0xa5, 0xe5, 0xf1, 0x71, 0xd8, 0x31, 0x15,
   0x04, 0xc7, 0x23, 0xc3, 0x18, 0x96, 0x05, 0x9a,
   0x07, 0x12, 0x80, 0xe2, 0xeb, 0x27, 0xb2, 0x75,
   0x09, 0x83, 0x2c, 0x1a, 0x1b, 0x6e, 0x5a, 0xa0,
   0x52, 0x3b, 0xd6, 0xb3, 0x29, 0xe3, 0x2f, 0x84,
   0x53, 0xd1, 0x00, 0xed, 0x20, 0xfc, 0xb1, 0x5b,
   0x6a, 0xcb, 0xbe, 0x39, 0x4a, 0x4c, 0x58, 0xcf,
   0xd0, 0xef, 0xaa, 0xfb, 0x43, 0x4d, 0x33, 0x85,
   0x45, 0xf9, 0x02, 0x7f, 0x50, 0x3c, 0x9f, 0xa8,
   0x51, 0xa3, 0x40, 0x8f, 0x92, 0x9d, 0x38, 0xf5,
   0xbc, 0xb6, 0xda, 0x21, 0x10, 0xff, 0xf3, 0xd2,
   0xcd, 0x0c, 0x13, 0xec, 0x5f, 0x97, 0x44, 0x17,
   0xc4, 0xa7, 0x7e, 0x3d, 0x64, 0x5d, 0x19, 0x73,
   0x60, 0x81, 0x4f, 0xdc, 0x22, 0x2a, 0x90, 0x88,
   0x46, 0xee, 0xb8, 0x14, 0xde, 0x5e, 0x0b, 0xdb,
   0xe0, 0x32, 0x3a, 0x0a, 0x49, 0x06, 0x24, 0x5c,
   0xc2, 0xd3, 0xac, 0x62, 0x91, 0x95, 0xe4, 0x79,
   0xe7, 0xc8, 0x37, 0x6d, 0x8d, 0xd5, 0x4e, 0xa9,
   0x6c, 0x56, 0xf4, 0xea, 0x65, 0x7a, 0xae, 0x08,
   0xba, 0x78, 0x25, 0x2e, 0x1c, 0xa6, 0xb4, 0xc6,
   0xe8, 0xdd, 0x74, 0x1f, 0x4b, 0xbd, 0x8b, 0x8a,
   0x70, 0x3e, 0xb5, 0x66, 0x48, 0x03, 0xf6, 0x0e,
   0x61, 0x35, 0x57, 0xb9, 0x86, 0xc1, 0x1d, 0x9e,
   0xe1, 0xf8, 0x98, 0x11, 0x69, 0xd9, 0x8e, 0x94,
   0x9b, 0x1e, 0x87, 0xe9, 0xce, 0x55, 0x28, 0xdf,
   0x8c, 0xa1, 0x89, 0x0d, 0xbf, 0xe6, 0x42, 0x68,
   0x41, 0x99, 0x2d, 0x0f, 0xb0, 0x54, 0xbb, 0x16]

/-- The inverse AES S-box. -/
def invSboxTable : List Nat :=
  [0x52, 0x09, 0x6a, 0xd5, 0x30, 0x36, 0xa5, 0x38,
   0xbf, 0x40, 0xa3, 0x9e, 0x81, 0xf3, 0xd7, 0xfb,
   0x7c, 0xe3, 0x39, 0x82, 0x9b, 0x2f, 0xff, 0x87,
   0x34, 0x8e, 0x43, 0x44, 0xc4, 0xde, 0xe9, 0xcb,
   0x54, 0x7b, 0x94, 0x32, 0xa6, 0xc2, 0x23, 0x3d,
   0xee, 0x4c, 0x95, 0x0b, 0x42, 0xfa, 0xc3, 0x4e,
   0x08, 0x2e, 0xa1, 0x66, 0x28, 0xd9, 0x24, 0xb2,
   0x76, 0x5b, 0xa2, 0x49, 0x6d, 0x8b, 0xd1, 0x25,
   0x72, 0xf8, 0xf6, 0x64, 0x86, 0x68, 0x98, 0x16,
   0xd4, 0xa4, 0x5c, 0xcc, 0x5d, 0x65, 0xb6, 0x92,
   0x6c, 0x70, 0x48, 0x50, 0xfd, 0xed, 0xb9, 0xda,
   0x5e, 0x15, 0x46, 0x57, 0xa7, 0x8d, 0x9d, 0x84,
   0x90, 0xd8, 0xab, 0x00, 0x8c, 0xbc, 0xd3, 0x0a,
   0xf7, 0xe4, 0x58, 0x05, 0xb8, 0xb3, 0x45, 0x06,
   0xd0, 0x2c, 0x1e, 0x8f, 0xca, 0x3f, 0x0f, 0x02,
   0xc1, 0xaf, 0xbd, 0x03, 0x01, 0x13, 0x8a, 0x6b,
   0x3a, 0x91, 0x11, 0x41, 0x4f, 0x67, 0xdc, 0xea,
   0x97, 0xf2, 0xcf, 0xce, 0xf0, 0xb4, 0xe6, 0x73,
   0x96, 0xac, 0x74, 0x22, 0xe7, 0xad, 0x35, 0x85,
   0xe2, 0xf9, 0x37, 0xe8, 0x1c, 0x75, 0xdf, 0x6e,
   0x47, 0xf1, 0x1a, 0x71, 0x1d, 0x29, 0xc5, 0x89,
   0x6f, 0xb7, 0x62, 0x0e, 0xaa, 0x18, 0xbe, 0x1b,
   0xfc, 0x56, 0x3e, 0x4b, 0xc6, 0xd2, 0x79, 0x20,
   0x9a, 0xdb, 0xc0, 0xfe, 0x78, 0xcd, 0x5a, 0xf4,
   0x1f, 0xdd, 0xa8, 0x33, 0x88, 0x07, 0xc7, 0x31,
   0xb1, 0x12, 0x10, 0x59, 0x27, 0x80, 0xec, 0x5f,
   0x60, 0x51, 0x7f, 0xa9, 0x19, 0xb5, 0x4a, 0x0d,
   0x2d, 0xe5, 0x7a, 0x9f, 0x93, 0xc9, 0x9c, 0xef,
   0xa0, 0xe0, 0x3b, 0x4d, 0xae, 0x2a, 0xf5, 0xb0,
   0xc8, 0xeb, 0xbb, 0x3c, 0x83, 0x53, 0x99, 0x61,
   0x17, 0x2b, 0x04, 0x7e, 0xba, 0x77, 0xd6, 0x26,
   0xe1, 0x69, 0x14, 0x63, 0x55, 0x21, 0x0c, 0x7d]
/-- S-box substitution of one byte. -/
def sboxB (b : Nat) : Nat := sboxTable.getD b 0

/-- Inverse S-box substitution of one byte. -/
def invSboxB (b : Nat) : Nat := invSboxTable.getD b 0

/-- SubBytes: the S-box on every state byte. -/
def subBytes (st : List Nat) : List Nat := st.map sboxB

/-- InvSubBytes. -/
def invSubBytes (st : List Nat) : List Nat := st.map invSboxB

/-- ShiftRows on a column-ordered 16-byte state (row `r` rotates left by
`r`); other lengths are untouched (they do not arise). -/
def shiftRows : List Nat → List Nat
  | [a0, a1, a2, a3, a4, a5, a6, a7, a8, a9, a10, a11, a12, a13, a14, a15] =>
    [a0, a5, a10, a15, a4, a9, a14, a3, a8, a13, a2, a7, a12, a1, a6, a11]
  | l => l

/-- InvShiftRows: the inverse permutation. -/
def invShiftRows : List Nat → List Nat
  | [a0, a1, a2, a3, a4, a5, a6, a7, a8, a9, a10, a11, a12, a13, a14, a15] =>
    [a0, a13, a10, a7, a4, a1, a14, a11, a8, a5, a2, a15, a12, a9, a6, a3]
  | l => l

/-- MixColumns on one column. -/
def mixColumn (a b c d : Nat) : Nat × Nat × Nat × Nat :=
  (gmul a 2 ^^^ gmul b 3 ^^^ c ^^^ d,
   a ^^^ gmul b 2 ^^^ gmul c 3 ^^^ d,
   a ^^^ b ^^^ gmul c 2 ^^^ gmul d 3,
   gmul a 3 ^^^ b ^^^ c ^^^ gmul d 2)

/-- InvMixColumns on one column. -/
def invMixColumn (a b c d : Nat) : Nat × Nat × Nat × Nat :=
  (gmul a 14 ^^^ gmul b 11 ^^^ gmul c 13 ^^^ gmul d 9,
   gmul a 9 ^^^ gmul b 14 ^^^ gmul c 11 ^^^ gmul d 13,
   gmul a 13 ^^^ gmul b 9 ^^^ gmul c 14 ^^^ gmul d 11,
   gmul a 11 ^^^ gmul b 13 ^^^ gmul c 9 ^^^ gmul d 14)

/-- MixColumns, four state bytes at a time. -/
def mixColumns : List Nat → List Nat
  | a :: b :: c :: d :: rest =>
    (mixColumn a b c d).1 :: (mixColumn a b c d).2.1 :: (mixColumn a b c d).2.2.1 ::
      (mixColumn a b c d).2.2.2 :: mixColumns rest
  | l => l

/-- InvMixColumns. -/
def invMixColumns : List Nat → List Nat
  | a :: b :: c :: d :: rest =>
    (invMixColumn a b c d).1 :: (invMixColumn a b c d).2.1 :: (invMixColumn a b c d).2.2.1 ::
      (invMixColumn a b c d).2.2.2 :: invMixColumns rest
  | l => l

/-- Bytewise XOR of two equal-length byte lists (AddRoundKey, CBC chaining). -/
def xorBytes (a b : List Nat) : List Nat := List.zipWith (· ^^^ ·) a b

/-- One middle encryption round. -/
def aesEncRound (k st : List Nat) : List Nat :=
  xorBytes (mixColumns (shiftRows (subBytes st))) k

/-- The rounds of the cipher after the initial whitening: middle rounds for
every key but the last, then the final round (no MixColumns). -/
def aesEncAux : List (List Nat) → List Nat → List Nat
  | [], st => st
  | [k], st => xorBytes (shiftRows (subBytes st)) k
  | k :: k' :: rest, st => aesEncAux (k' :: rest) (aesEncRound k st)

/-- AES block encryption under an expanded key schedule. -/
def aesEncBlock (keys : List (List Nat)) (st : List Nat) : List Nat :=
  match keys with
  | [] => st
  | k0 :: rest => aesEncAux rest (xorBytes st k0)

/-- Inverse of one middle round. -/
def aesDecRound (k st : List Nat) : List Nat :=
  invSubBytes (invShiftRows (invMixColumns (xorBytes st k)))

/-- Inverse of the rounds after whitening, unwinding `aesEncAux`. -/
def aesDecAux : List (List Nat) → List Nat → List Nat
  | [], st => st
  | [k], st => invSubBytes (invShiftRows (xorBytes st k))
  | k :: k' :: rest, st => aesDecRound k (aesDecAux (k' :: rest) st)

/-- AES block decryption under the same expanded key schedule. -/
def aesDecBlock (keys : List (List Nat)) (st : List Nat) : List Nat :=
  match keys with
  | [] => st
  | k0 :: rest => xorBytes (aesDecAux rest st) k0

/-- SubWord of the key schedule. -/
def subWord (w : List Nat) : List Nat := w.map sboxB

/-- RotWord of the key schedule. -/
def rotWord : List Nat → List Nat
  | a :: rest => rest ++ [a]
  | [] => []

/-- The round-constant words `[rcon, 0, 0, 0]` (AES-256 needs seven). -/
def rconWord (i : Nat) : List Nat :=
  [[1, 0, 0, 0], [2, 0, 0, 0], [4, 0, 0, 0], [8, 0, 0, 0], [16, 0, 0, 0],
   [32, 0, 0, 0], [64, 0, 0, 0]].getD (i - 1) [0, 0, 0, 0]

/-- One key-expansion step: from the words so far (newest first is avoided —
the list is in order), append word `i`. -/
def keyExpandStep (ws : List (List Nat)) : List (List Nat) :=
  let i := ws.length
  let prev := ws.getD (i - 1) []
  let temp :=
    if i % 8 = 0 then xorBytes (subWord (rotWord prev)) (rconWord (i / 8))
    else if i % 8 = 4 then subWord prev
    else prev
  ws ++ [xorBytes (ws.getD (i - 8) []) temp]

/-- Run `k` expansion steps. -/
def keyExpandIter : Nat → List (List Nat) → List (List Nat)
  | 0, ws => ws
  | k + 1, ws => keyExpandIter k (keyExpandStep ws)

/-- Split a list into 4-element groups (fuel-bounded, structural): the key
into words, and the expanded words into round keys. -/
def words4Fuel {α : Type} : Nat → List α → List (List α)
  | 0, _ => []
  | _ + 1, [] => []
  | fuel + 1, l => l.take 4 :: words4Fuel fuel (l.drop 4)

/-- The AES-256 key schedule: expand the 32-byte key to 60 words and group
them into fifteen 16-byte round keys. -/
def keySchedule (key : List Nat) : List (List Nat) :=
  let ws := keyExpandIter 52 (words4Fuel key.length key)
  let grouped := words4Fuel ws.length ws
  grouped.map List.flatten

/-- Split a byte list into 16-byte blocks (fuel-bounded, structural). -/
def chunks16Fuel : Nat → List Nat → List (List Nat)
  | 0, _ => []
  | _ + 1, [] => []
  | fuel + 1, l => l.take 16 :: chunks16Fuel fuel (l.drop 16)

/-- Split a byte list into 16-byte blocks. -/
def chunks16 (l : List Nat) : List (List Nat) := chunks16Fuel l.length l

/-- PKCS#7 padding to the 16-byte block size. -/
def pkcs7Pad (bs : List Nat) : List Nat :=
  let p := 16 - bs.length % 16
  bs ++ List.replicate p p

/-- PKCS#7 unpadding with the validity check Node's `decipher.final`
performs: the last byte names a pad length in `[1,16]` and that many
trailing copies of it must be present. -/
def pkcs7Unpad (bs : List Nat) : Except String (List Nat) :=
  let p := bs.getLast?.getD 0
  if 1 ≤ p ∧ p ≤ 16 ∧ p ≤ bs.length ∧
      bs.drop (bs.length - p) = List.replicate p p then
    Except.ok (bs.take (bs.length - p))
  else
    Except.error "bad decrypt"

/-- CBC encryption of a block list with the running ciphertext chain. -/
def cbcEncAux (keys : List (List Nat)) : List Nat → List (List Nat) → List (List Nat)
  | _, [] => []
  | prev, b :: rest =>
    aesEncBlock keys (xorBytes b prev) :: cbcEncAux keys (aesEncBlock keys (xorBytes b prev)) rest

/-- CBC decryption. -/
def cbcDecAux (keys : List (List Nat)) : List Nat → List (List Nat) → List (List Nat)
  | _, [] => []
  | prev, c :: rest => xorBytes (aesDecBlock keys c) prev :: cbcDecAux keys c rest

/-- The value of one hex digit; `none` outside `0-9a-fA-F`. -/
def hexVal (c : Char) : Option Nat :=
  let n := c.toNat
  if 48 ≤ n ∧ n ≤ 57 then some (n - 48)
  else if 97 ≤ n ∧ n ≤ 102 then some (n - 97 + 10)
  else if 65 ≤ n ∧ n ≤ 70 then some (n - 65 + 10)
  else none

/-- `Buffer.from(s, "hex")`: consume hex-digit pairs, stopping at the first
byte that is not two hex digits. -/
def hexDecodeFuel : Nat → List Char → List Nat
  | 0, _ => []
  | _ + 1, c1 :: c2 :: rest =>
    match hexVal c1, hexVal c2 with
    | some h, some l => (16 * h + l) :: hexDecodeFuel (rest.length) rest
    | _, _ => []
  | _ + 1, _ => []

/-- Decode a hex string to bytes. -/
def hexToBytes (s : String) : List Nat := hexDecodeFuel s.data.length s.data

/-- `text.split(":")` at the character level. -/
def splitColon : List Char → List (List Char)
  | [] => [[]]
  | c :: rest =>
    if c = ':' then [] :: splitColon rest
    else
      match splitColon rest with
      | [] => [[c]]
      | g :: gs => (c :: g) :: gs

/-- `symmetricEncrypt` (the TOTP route's helper): base64-decode the key,
throw unless it is exactly 32 bytes, then AES-256-CBC-encrypt the UTF-8 bytes
of the text under the given 16-byte IV (`crypto.randomBytes(16)` in the
source, threaded explicitly here) and return `ivHex:cipherHex`. -/
def symmetricEncrypt (text key : String) (iv : List Nat) : Except String String :=
  let _key := base64Decode key
  if _key.length ≠ 32 then
    Except.error ("Invalid key length: expected 32 bytes, got " ++ toString _key.length)
  else
    let keys := keySchedule _key
    let ct := (cbcEncAux keys iv (chunks16 (pkcs7Pad (utf8Bytes text)))).flatten
    Except.ok (hexOfBytes iv ++ ":" ++ hexOfBytes ct)

/-- `symmetricDecrypt`: base64-decode the key, throw unless 32 bytes, split
the text at `:`, read the IV from the first component, decrypt the rest
(joined back with `:`), validate and strip the padding, and decode UTF-8. -/
def symmetricDecrypt (text key : String) : Except String String :=
  let _key := base64Decode key
  if _key.length ≠ 32 then
    Except.error ("Invalid key length: expected 32 bytes, got " ++ toString _key.length)
  else
    let keys := keySchedule _key
    let components := splitColon text.data
    let ivChars := components.headD []
    let iv := hexDecodeFuel ivChars.length ivChars
    let ctChars := String.intercalate ":" (components.tail.map (fun l => (⟨l⟩ : String)))
    let ct := hexToBytes ctChars
    match pkcs7Unpad ((cbcDecAux keys iv (chunks16 ct)).flatten) with
    | Except.error e => Except.error e
    | Except.ok pt => Except.ok (utf8ToString pt)
/-- The invariant of `keyExpandStep`: at least eight words so far, all of
them 4 bytes of byte values. -/
def wfWords (ws : List (List Nat)) : Prop :=
  8 ≤ ws.length ∧ ∀ w ∈ ws, w.length = 4 ∧ ∀ x ∈ w, x < 256

/-- The 32-byte test key (base64 of bytes `0x00..0x1f`) and a fixed IV. -/
def c10Key : String := "AAECAwQFBgcICQoLDA0ODxAREhMUFRYXGBkaGxwdHh8="

/-- A concrete 16-byte IV for the witness. -/
def c10Iv : List Nat := [0, 1, 2, 3, 4, 5, 6, 7, 8, 9, 10, 11, 12, 13, 14, 15]

theorem utf8DecodeFuel_encode : ∀ (cs : List Char) (fuel : Nat),
    cs.length ≤ fuel →
    utf8DecodeFuel fuel ((cs.map utf8EncodeChar).flatten) = cs := by
  intro cs
  induction cs with
  | nil => intro fuel h; cases fuel <;> simp [utf8DecodeFuel]
  | cons c cs ih =>
    intro fuel h
    cases fuel with
    | zero => simp at h
    | succ f =>
      have hf : cs.length ≤ f := by simpa using h
      simp only [List.map_cons, List.flatten_cons]
      by_cases h1 : c.toNat < 128
      · simp only [utf8EncodeChar, if_pos h1, List.cons_append, List.nil_append,
          utf8DecodeFuel, if_pos h1]
        rw [Char.ofNat_toNat, ih f hf]
      · by_cases h2 : c.toNat < 2048
        · simp only [utf8EncodeChar, if_neg h1, if_pos h2, List.cons_append,
            List.nil_append, utf8DecodeFuel]
          rw [if_neg (by omega), if_pos (by omega)]
          simp only [List.headD_cons, List.drop_succ_cons, List.drop_zero]
          have he : (192 + c.toNat / 64 - 192) * 64 + (128 + c.toNat % 64 - 128) = c.toNat := by
            omega
          rw [he, Char.ofNat_toNat, ih f hf]
        · by_cases h3 : c.toNat < 65536
          · simp only [utf8EncodeChar, if_neg h1, if_neg h2, if_pos h3,
              List.cons_append, List.nil_append, utf8DecodeFuel]
            rw [if_neg (by omega), if_neg (by omega), if_pos (by omega)]
            simp only [List.headD_cons, List.drop_succ_cons, List.drop_zero]
            have he : (224 + c.toNat / 4096 - 224) * 4096 +
                (128 + c.toNat / 64 % 64 - 128) * 64 + (128 + c.toNat % 64 - 128) = c.toNat := by
              omega
            rw [he, Char.ofNat_toNat, ih f hf]
          · simp only [utf8EncodeChar, if_neg h1, if_neg h2, if_neg h3,
              List.cons_append, List.nil_append, utf8DecodeFuel]
            rw [if_neg (by omega), if_neg (by omega), if_neg (by omega)]
            simp only [List.headD_cons, List.drop_succ_cons, List.drop_zero]
            have he : (240 + c.toNat / 262144 - 240) * 262144 +
                (128 + c.toNat / 4096 % 64 - 128) * 4096 +
                (128 + c.toNat / 64 % 64 - 128) * 64 + (128 + c.toNat % 64 - 128) = c.toNat := by
              omega
            rw [he, Char.ofNat_toNat, ih f hf]

theorem length_le_length_utf8 (cs : List Char) :
    cs.length ≤ ((cs.map utf8EncodeChar).flatten).length := by
  induction cs with
  | nil => simp
  | cons c cs ih =>
    simp only [List.map_cons, List.flatten_cons, List.length_cons, List.length_append]
    have : 1 ≤ (utf8EncodeChar c).length := by
      simp only [utf8EncodeChar]
      repeat' split
      all_goals simp
    omega

theorem utf8ToString_utf8Bytes (s : String) : utf8ToString (utf8Bytes s) = s := by
  cases s with
  | mk data =>
    show (⟨utf8DecodeFuel (utf8Bytes ⟨data⟩).length (utf8Bytes ⟨data⟩)⟩ : String) = ⟨data⟩
    rw [show utf8Bytes ⟨data⟩ = (data.map utf8EncodeChar).flatten from rfl]
    rw [utf8DecodeFuel_encode data _ (length_le_length_utf8 data)]

theorem utf8Bytes_injective {a b : String} (h : utf8Bytes a = utf8Bytes b) : a = b := by
  have := utf8ToString_utf8Bytes a
  rw [h, utf8ToString_utf8Bytes b] at this
  exact this.symm

theorem timingSafeEqual_eq_true_iff (a b : String) :
    timingSafeEqual a b = true ↔ a = b := by
  constructor
  · intro h
    simp only [timingSafeEqual] at h
    split at h
    · simp at h
    · exact utf8Bytes_injective (by simpa using h)
  · intro h
    subst h
    simp [timingSafeEqual]

theorem timingSafeEqual_self (a : String) : timingSafeEqual a a = true := by
  simp [timingSafeEqual]
theorem sha256Compress_length (hs chunk : List Nat) :
    (sha256Compress hs chunk).length = 8 := rfl

theorem foldl_sha256Compress_length :
    ∀ (chunks : List (List Nat)) (hs : List Nat), hs.length = 8 →
    (chunks.foldl sha256Compress hs).length = 8 := by
  intro chunks
  induction chunks with
  | nil => intro hs h; simpa using h
  | cons c cs ih => intro hs _; exact ih (sha256Compress hs c) rfl

theorem sha256_length (msg : List Nat) : (sha256 msg).length = 32 := by
  have h8 := foldl_sha256Compress_length (chunks64 (sha256Pad msg)) sha256Init rfl
  show ((((chunks64 (sha256Pad msg)).foldl sha256Compress sha256Init).map wordToBytes).flatten).length = 32
  generalize ((chunks64 (sha256Pad msg)).foldl sha256Compress sha256Init) = hs at h8 ⊢
  have : ∀ l : List Nat, ((l.map wordToBytes).flatten).length = 4 * l.length := by
    intro l
    induction l with
    | nil => simp
    | cons a t ih => simp [wordToBytes, ih]; omega
  rw [this, h8]

theorem hexOfBytes_length (bs : List Nat) : (hexOfBytes bs).length = 2 * bs.length := by
  show ((bs.map hexByte).flatten).length = 2 * bs.length
  induction bs with
  | nil => simp
  | cons a t ih => simp [hexByte] at ih ⊢; omega

theorem hexHmacSha256_ne_empty (secret body : String) : hexHmacSha256 secret body ≠ "" := by
  intro h
  have hl := congrArg String.length h
  rw [show hexHmacSha256 secret body = hexOfBytes (hmacSha256 (utf8Bytes secret) (utf8Bytes body)) from rfl] at hl
  rw [hexOfBytes_length] at hl
  have h32 : (hmacSha256 (utf8Bytes secret) (utf8Bytes body)).length = 32 := sha256_length _
  rw [h32] at hl
  simp at hl
/-! ## Helper lemmas -/

theorem jsOr_some_empty_default (x : String) : jsOr (some x) "" = x := by
  by_cases h : x = "" <;> simp [jsOr, h]

theorem serializeEvent_ne_empty (attrs : EventAttributes) : serializeEvent attrs ≠ "" := by
  intro h
  have hl := congrArg String.length h
  have h0 : ("" : String).length = 0 := rfl
  simp only [serializeEvent, String.length_append, h0] at hl
  have h1 : 0 < ("BEGIN:VCALENDAR\r\nVERSION:2.0\r\nMETHOD:" : String).length := by decide
  omega

/-- C3: for a snapshot carrying sequence `n`, the created handler's invite
carries sequence exactly `n`, while the rescheduled and cancelled handlers'
invites each carry sequence exactly `n + 1` (both at the builder input and in
the attributes handed to the calendar encoder). -/
theorem handlers_sequence_discipline (payload : BookingPayload) (st et : Int)
    (att : IcsPerson) (he : String) (hn : Option String) (loc uid : String) (n : Int) :
    (createdIcsParams payload st et att he hn loc uid n).sequence = some n ∧
    (toEventAttributes (createdIcsParams payload st et att he hn loc uid n)).sequence = n ∧
    (rescheduledIcsParams payload st et att he hn loc uid n).sequence = some (n + 1) ∧
    (toEventAttributes (rescheduledIcsParams payload st et att he hn loc uid n)).sequence = n + 1 ∧
    (cancelledIcsParams payload st et att he hn loc uid n).sequence = some (n + 1) ∧
    (toEventAttributes (cancelledIcsParams payload st et att he hn loc uid n)).sequence = n + 1 :=
  ⟨rfl, rfl, rfl, rfl, rfl, rfl⟩

/-- C5: the builder encodes start and end through `toDateArray` — the UTC
civil `(year, month 1-indexed, day, hour, minute)` of the instant — e.g.
2024-01-01T15:00:00Z as `(2024,1,1,15,0)` and 15:30 as `(2024,1,1,15,30)`;
a `CANCELLED` lifecycle yields partstat `DECLINED` and busy-status `FREE`,
any other status `ACCEPTED` and `BUSY`. -/
theorem buildIcs_utc_encoding_and_partstat (params : WebhookIcsParams) :
    (toEventAttributes params).start = toDateArray params.start ∧
    (toEventAttributes params).endTime = toDateArray params.endTime ∧
    toDateArray (utcMillis 2024 1 1 15 0) = [2024, 1, 1, 15, 0] ∧
    toDateArray (utcMillis 2024 1 1 15 30) = [2024, 1, 1, 15, 30] ∧
    (params.status = "CANCELLED" →
      (toEventAttributes params).attendees.map IcsAttendee.partstat = ["DECLINED"] ∧
      (toEventAttributes params).busyStatus = "FREE") ∧
    (params.status ≠ "CANCELLED" →
      (toEventAttributes params).attendees.map IcsAttendee.partstat = ["ACCEPTED"] ∧
      (toEventAttributes params).busyStatus = "BUSY") := by
  refine ⟨rfl, rfl, by decide, by decide, ?_, ?_⟩
  · intro h; constructor <;> simp [toEventAttributes, h]
  · intro h; constructor <;> simp [toEventAttributes, h]

/-- Witness for C5 at the cancelled sample input. -/
theorem buildIcs_utc_encoding_and_partstat_witness :
    (toEventAttributes sampleCancelledParams).attendees.map IcsAttendee.partstat = ["DECLINED"] ∧
    (toEventAttributes sampleCancelledParams).busyStatus = "FREE" :=
  (buildIcs_utc_encoding_and_partstat sampleCancelledParams).2.2.2.2.1 rfl

/-- C7: when the calendar-encoding step reports an error the builder
propagates it (`throw`), and a successful build is never the empty document. -/
theorem buildIcs_propagates_and_nonempty (params : WebhookIcsParams) :
    (∀ e, (createEvent (toEventAttributes params)).1 = some e →
      buildIcsString params = Except.error e) ∧
    (∀ s, buildIcsString params = Except.ok s → s ≠ "") := by
  constructor
  · intro e he
    simp [buildIcsString, he]
  · intro s hs
    by_cases h1 : icsEmailOk (toEventAttributes params).organizer.email = false
    · simp [buildIcsString, createEvent, h1] at hs
    · by_cases h2 : (toEventAttributes params).attendees.all
          (fun a => icsEmailOk a.email) = false
      · simp [buildIcsString, createEvent, h1, h2] at hs
      · simp [buildIcsString, createEvent, h1, h2, jsOr_some_empty_default] at hs
        rw [← hs]
        exact serializeEvent_ne_empty _

/-- Witness for C7: at the malformed-organizer input the encoder reports an
error and the builder throws it. -/
theorem buildIcs_propagates_and_nonempty_witness :
    buildIcsString badOrganizerParams = Except.error "invalid organizer" :=
  (buildIcs_propagates_and_nonempty badOrganizerParams).1 "invalid organizer" rfl

/-- C8: with the provider token configured, a truthy calendar document is
attached as `invite.ics`, base64-encoded, with content type
`text/calendar; method=<METHOD>; charset="utf-8"` — `<METHOD>` the supplied
method, defaulting to `REQUEST` when none is supplied — and without a truthy
document no attachment is added. -/
theorem sendPostmarkEmail_ok (token : Option String) (params : SendEmailParams)
    (ht : jsTruthy token = true) :
    sendPostmarkEmail token params = Except.ok
      { fromAddr := params.fromAddr, toAddr := params.toAddr, subject := params.subject,
        htmlBody := params.htmlBody, messageStream := "outbound",
        textBody := if jsTruthy params.textBody = true then params.textBody else none,
        attachments :=
          if jsTruthy params.icsContent = true then
            [{ name := "invite.ics",
               content := base64Encode (utf8Bytes (params.icsContent.getD "")),
               contentType := "text/calendar; method=" ++ jsOr params.icsMethod "REQUEST" ++ "; charset=\"utf-8\"" }]
          else [] } := by
  simp only [sendPostmarkEmail, ht]
  simp

theorem sendPostmark_ics_attachment (token : Option String) (params : SendEmailParams)
    (ht : jsTruthy token = true) :
    (∀ s m, params.icsContent = some s → s ≠ "" →
      params.icsMethod = some m → m = "REQUEST" ∨ m = "CANCEL" →
      ∃ msg, sendPostmarkEmail token params = Except.ok msg ∧
        msg.attachments = [{ name := "invite.ics",
                             content := base64Encode (utf8Bytes s),
                             contentType := "text/calendar; method=" ++ m ++ "; charset=\"utf-8\"" }]) ∧
    (∀ s, params.icsContent = some s → s ≠ "" → params.icsMethod = none →
      ∃ msg, sendPostmarkEmail token params = Except.ok msg ∧
        msg.attachments = [{ name := "invite.ics",
                             content := base64Encode (utf8Bytes s),
                             contentType := "text/calendar; method=REQUEST; charset=\"utf-8\"" }]) ∧
    (params.icsContent = none →
      ∃ msg, sendPostmarkEmail token params = Except.ok msg ∧ msg.attachments = []) ∧
    (params.icsContent = some "" →
      ∃ msg, sendPostmarkEmail token params = Except.ok msg ∧ msg.attachments = []) := by
  refine ⟨?_, ?_, ?_, ?_⟩
  · intro s m hc hs hm hmr
    have hne : m ≠ "" := by rcases hmr with h | h <;> simp [h]
    refine ⟨_, sendPostmarkEmail_ok token params ht, ?_⟩
    simp only [hc, hm]
    simp [jsTruthy, hs, jsOr, hne]
  · intro s hc hs hm
    refine ⟨_, sendPostmarkEmail_ok token params ht, ?_⟩
    simp only [hc, hm]
    simp [jsTruthy, hs, jsOr]
  · intro hc
    refine ⟨_, sendPostmarkEmail_ok token params ht, ?_⟩
    simp only [hc]
    simp [jsTruthy]
  · intro hc
    refine ⟨_, sendPostmarkEmail_ok token params ht, ?_⟩
    simp only [hc]
    simp [jsTruthy]

/-- Witness for C8: the default method is `REQUEST`. -/
theorem sendPostmark_ics_attachment_witness :
    ∃ msg, sendPostmarkEmail (some "token-1") sampleSendParams = Except.ok msg ∧
      msg.attachments = [{ name := "invite.ics",
                           content := base64Encode (utf8Bytes "BEGIN:VCALENDAR"),
                           contentType := "text/calendar; method=REQUEST; charset=\"utf-8\"" }] :=
  (sendPostmark_ics_attachment (some "token-1") sampleSendParams (by decide)).2.1
    "BEGIN:VCALENDAR" rfl (by decide) rfl

/-- C9: when `iCalUID`, `bookingUid`, `uid` and `bookingId` are all absent the
extraction chain yields the literal string `"undefined"` (JavaScript's
`String(undefined)`), for every value the random-UUID fallback would have
produced — so that fallback is unreachable. -/
theorem extractBookingUid_all_absent (payload : BookingPayload)
    (h1 : payload.iCalUID = none) (h2 : payload.bookingUid = none)
    (h3 : payload.uid = none) (h4 : payload.bookingId = none) :
    ∀ randomUUID : String, extractBookingUid payload randomUUID = "undefined" := by
  intro r
  simp [extractBookingUid, h1, h2, h3, h4, jsStringOfBookingId, jsOr]

/-- Witness for C9 on the all-absent payload. -/
theorem extractBookingUid_all_absent_witness :
    extractBookingUid emptyBooking "3f2a-random-uuid" = "undefined" :=
  extractBookingUid_all_absent emptyBooking rfl rfl rfl rfl "3f2a-random-uuid"
/-! ## Handler stage lemmas -/

theorem handler_auth_to_process (pf : Platform) (env : Env) (req : WebhookRequest)
    (s : String) (hm : req.method = "POST") (hsec : env.calWebhookSecret = some s)
    (hs : s ≠ "") (hdr : req.sigHeader = some (hexHmacSha256 s req.rawBody))
    (ev : WebhookPayload) (hp : pf.parseJson req.rawBody = some ev) :
    handler pf env req = handlerProcess pf env ev := by
  simp [handler, hm, hsec, hdr, hp, jsTruthy, hs, jsOr_some_empty_default,
    hexHmacSha256_ne_empty, timingSafeEqual_self]

theorem handlerProcess_unknown (pf : Platform) (env : Env) (ev : WebhookPayload)
    (h : normalizeTrigger (jsOrOpt ev.triggerEvent (jsOrOpt ev.event ev.type)) =
      TriggerType.unknown) :
    handlerProcess pf env ev =
      ⟨200, ResBody.ignoredTrig (jsOrOpt ev.triggerEvent (jsOrOpt ev.event ev.type)), []⟩ := by
  simp [handlerProcess, h]

/-- C1: with the shared secret configured, a POST whose signature header is
absent or differs from the hex HMAC-SHA256 of the exact raw body under that
secret is answered 401 with no effect — and the result is the same for every
platform, so the body is never parsed and no invite is ever constructed. -/
theorem handler_401_on_bad_signature (env : Env) (req : WebhookRequest) (s : String)
    (hm : req.method = "POST") (hsec : env.calWebhookSecret = some s) (hs : s ≠ "")
    (hsig : req.sigHeader = none ∨
      ∃ x, req.sigHeader = some x ∧ x ≠ hexHmacSha256 s req.rawBody) :
    ∀ pf : Platform, handler pf env req =
      ⟨401, ResBody.errorMsg "Invalid signature", []⟩ := by
  intro pf
  rcases hsig with hnone | ⟨x, hx, hneq⟩
  · simp [handler, hm, hsec, hnone, jsTruthy, hs, jsOr]
  · by_cases hxe : x = ""
    · simp [handler, hm, hsec, hx, hxe, jsTruthy, hs, jsOr]
    · have hts : timingSafeEqual x (hexHmacSha256 s req.rawBody) = false := by
        rw [Bool.eq_false_iff]
        intro hcontra
        exact hneq ((timingSafeEqual_eq_true_iff _ _).1 hcontra)
      simp [handler, hm, hsec, hx, hxe, jsTruthy, hs, jsOr, hts]

/-- Witness for C1 at a concrete request with no signature header. -/
theorem handler_401_on_bad_signature_witness :
    handler trivialPlatform
      { calWebhookSecret := some "secret-1", postmarkFromEmail := some "a@b.co",
        postmarkServerApiToken := some "tok" }
      { method := "POST", sigHeader := none, rawBody := "\x7b\"triggerEvent\":\"BOOKING_CREATED\"\x7d" } =
      ⟨401, ResBody.errorMsg "Invalid signature", []⟩ :=
  handler_401_on_bad_signature _ _ "secret-1" rfl rfl (by decide) (Or.inl rfl) trivialPlatform

/-- C2 (amended): classification is ordered — a normalized value containing
`CREATED` is created; containing `RESCHEDULED` but not `CREATED` is
rescheduled; containing `CANCEL` but neither of those is cancelled; anything
else (including an absent or empty trigger) is unknown, and an unknown
trigger is acknowledged 200 with no effect.  Normalization upper-cases and
replaces whitespace runs with underscores, so `BOOKING_CREATED`,
`Booking Created` and `created`-containing variants all classify as created. -/
theorem normalizeTrigger_ordered (s : String) :
    (strIncludes (normTriggerText s) "CREATED" = true →
      normalizeTrigger (some s) = TriggerType.BOOKING_CREATED) ∧
    (strIncludes (normTriggerText s) "CREATED" = false →
      strIncludes (normTriggerText s) "RESCHEDULED" = true →
      normalizeTrigger (some s) = TriggerType.BOOKING_RESCHEDULED) ∧
    (strIncludes (normTriggerText s) "CREATED" = false →
      strIncludes (normTriggerText s) "RESCHEDULED" = false →
      strIncludes (normTriggerText s) "CANCEL" = true →
      normalizeTrigger (some s) = TriggerType.BOOKING_CANCELLED) ∧
    (strIncludes (normTriggerText s) "CREATED" = false →
      strIncludes (normTriggerText s) "RESCHEDULED" = false →
      strIncludes (normTriggerText s) "CANCEL" = false →
      normalizeTrigger (some s) = TriggerType.unknown) ∧
    normalizeTrigger none = TriggerType.unknown ∧
    normalizeTrigger (some "") = TriggerType.unknown ∧
    normalizeTrigger (some "BOOKING_CREATED") = TriggerType.BOOKING_CREATED ∧
    normalizeTrigger (some "Booking Created") = TriggerType.BOOKING_CREATED ∧
    normalizeTrigger (some "meeting created") = TriggerType.BOOKING_CREATED ∧
    (∀ (pf : Platform) (env : Env) (req : WebhookRequest) (sec : String)
      (ev : WebhookPayload),
      req.method = "POST" → env.calWebhookSecret = some sec → sec ≠ "" →
      req.sigHeader = some (hexHmacSha256 sec req.rawBody) →
      pf.parseJson req.rawBody = some ev →
      normalizeTrigger (jsOrOpt ev.triggerEvent (jsOrOpt ev.event ev.type)) =
        TriggerType.unknown →
      handler pf env req =
        ⟨200, ResBody.ignoredTrig (jsOrOpt ev.triggerEvent (jsOrOpt ev.event ev.type)), []⟩) := by
  have hemp : ∀ pat : String, pat.data ≠ [] → strIncludes (normTriggerText "") pat = false := by
    intro pat hp
    cases hq : pat.data with
    | nil => exact absurd hq hp
    | cons a t =>
      show strIncludes.go pat _ = false
      simp [strIncludes.go, normTriggerText, replaceWsFuel, hq, List.isPrefixOf]
  refine ⟨?_, ?_, ?_, ?_, by decide, by decide, by decide, by decide, by decide, ?_⟩
  · intro h
    have hs : s ≠ "" := by
      rintro rfl
      rw [hemp "CREATED" (by decide)] at h
      exact absurd h (by decide)
    simp [normalizeTrigger, jsTruthy, hs, h]
  · intro h1 h2
    have hs : s ≠ "" := by
      rintro rfl
      rw [hemp "RESCHEDULED" (by decide)] at h2
      exact absurd h2 (by decide)
    have hbc : normTriggerText s ≠ "BOOKING_CREATED" := by
      intro he
      rw [he] at h1
      exact absurd h1 (by decide)
    simp [normalizeTrigger, jsTruthy, hs, h1, h2, hbc]
  · intro h1 h2 h3
    have hs : s ≠ "" := by
      rintro rfl
      rw [hemp "CANCEL" (by decide)] at h3
      exact absurd h3 (by decide)
    have hbc : normTriggerText s ≠ "BOOKING_CREATED" := by
      intro he
      rw [he] at h1
      exact absurd h1 (by decide)
    have hbr : normTriggerText s ≠ "BOOKING_RESCHEDULED" := by
      intro he
      rw [he] at h2
      exact absurd h2 (by decide)
    simp [normalizeTrigger, jsTruthy, hs, h1, h2, h3, hbc, hbr]
  · intro h1 h2 h3
    by_cases hs : s = ""
    · simp [normalizeTrigger, jsTruthy, hs]
    · have hbc : normTriggerText s ≠ "BOOKING_CREATED" := by
        intro he
        rw [he] at h1
        exact absurd h1 (by decide)
      have hbr : normTriggerText s ≠ "BOOKING_RESCHEDULED" := by
        intro he
        rw [he] at h2
        exact absurd h2 (by decide)
      have hbx : normTriggerText s ≠ "BOOKING_CANCELLED" := by
        intro he
        rw [he] at h3
        exact absurd h3 (by decide)
      simp [normalizeTrigger, jsTruthy, hs, h1, h2, h3, hbc, hbr, hbx]
  · intro pf env req sec ev hm hsec hsne hdr hp hunk
    rw [handler_auth_to_process pf env req sec hm hsec hsne hdr ev hp]
    exact handlerProcess_unknown pf env ev hunk

/-- Witness for C2 at the separator-insensitive input. -/
theorem normalizeTrigger_ordered_witness :
    strIncludes (normTriggerText "Booking Created") "CREATED" = true ∧
    normalizeTrigger (some "Booking Created") = TriggerType.BOOKING_CREATED :=
  ⟨by decide, (normalizeTrigger_ordered "Booking Created").1 (by decide)⟩

/-- Counterexample for C2 as frozen: `"CANCEL CREATED"` contains `CANCEL`
(after normalization) yet classifies as created, not cancelled. -/
theorem normalizeTrigger_cancel_created_counterexample :
    strIncludes (normTriggerText "CANCEL CREATED") "CANCEL" = true ∧
    normalizeTrigger (some "CANCEL CREATED") = TriggerType.BOOKING_CREATED ∧
    normalizeTrigger (some "CANCEL CREATED") ≠ TriggerType.BOOKING_CANCELLED := by
  refine ⟨by decide, by decide, by decide⟩
/-- C4: an authenticated, well-formed request with a recognized trigger but a
missing required field — start time, end time, first attendee email, or host
email — is answered 200 with an explicit skip reason, with no email sent and
no invite built. -/
theorem handler_200_skip_on_missing_fields (pf : Platform) (env : Env)
    (req : WebhookRequest) (sec : String) (ev : WebhookPayload)
    (hm : req.method = "POST") (hsec : env.calWebhookSecret = some sec)
    (hsne : sec ≠ "")
    (hdr : req.sigHeader = some (hexHmacSha256 sec req.rawBody))
    (hp : pf.parseJson req.rawBody = some ev)
    (htr : normalizeTrigger (jsOrOpt ev.triggerEvent (jsOrOpt ev.event ev.type)) ≠
      TriggerType.unknown)
    (hmiss : jsTruthy (ev.payload.getD ev.self).startTime = false ∨
      jsTruthy (ev.payload.getD ev.self).endTime = false ∨
      ((ev.payload.getD ev.self).attendees.getD
        ((ev.payload.getD ev.self).attendeesList.getD [])).head? = none ∨
      (∃ a, ((ev.payload.getD ev.self).attendees.getD
        ((ev.payload.getD ev.self).attendeesList.getD [])).head? = some a ∧
        a.email = "") ∨
      jsTruthy (jsOrOpt (ev.payload.getD ev.self).hostEmail
        ((ev.payload.getD ev.self).organizer.map IcsPerson.email)) = false) :
    ∃ r, (r = "missing start/end time" ∨ r = "no attendee email" ∨ r = "no host email") ∧
      handler pf env req = ⟨200, ResBody.skipped r, []⟩ := by
  rw [handler_auth_to_process pf env req sec hm hsec hsne hdr ev hp]
  by_cases h1 : jsTruthy (ev.payload.getD ev.self).startTime = false
  · exact ⟨"missing start/end time", Or.inl rfl, by simp [handlerProcess, htr, h1]⟩
  · by_cases h2 : jsTruthy (ev.payload.getD ev.self).endTime = false
    · exact ⟨"missing start/end time", Or.inl rfl, by simp [handlerProcess, htr, h1, h2]⟩
    · rcases h3 : ((ev.payload.getD ev.self).attendees.getD
          ((ev.payload.getD ev.self).attendeesList.getD [])).head? with _ | a
      · exact ⟨"no attendee email", Or.inr (Or.inl rfl), by
          simp [handlerProcess, htr, h1, h2, h3]⟩
      · by_cases h4 : a.email = ""
        · exact ⟨"no attendee email", Or.inr (Or.inl rfl), by
            simp [handlerProcess, htr, h1, h2, h3, h4]⟩
        · by_cases h5 : jsTruthy (jsOrOpt (ev.payload.getD ev.self).hostEmail
              ((ev.payload.getD ev.self).organizer.map IcsPerson.email)) = false
          · exact ⟨"no host email", Or.inr (Or.inr rfl), by
              simp [handlerProcess, htr, h1, h2, h3, h4, h5]⟩
          · exfalso
            rcases hmiss with h | h | h | ⟨a', ha', he'⟩ | h
            · exact h1 h
            · exact h2 h
            · rw [h3] at h; exact Option.noConfusion h
            · rw [h3] at ha'
              cases Option.some.inj ha'
              exact h4 he'
            · exact h5 h

/-- Witness for C4: missing attendee list gives a 200 skip and nothing else. -/
theorem handler_200_skip_on_missing_fields_witness :
    ∃ r, (r = "missing start/end time" ∨ r = "no attendee email" ∨ r = "no host email") ∧
      handler c4Platform
        { calWebhookSecret := some "sec4", postmarkFromEmail := some "noreply@example.com",
          postmarkServerApiToken := some "tok4" }
        { method := "POST", sigHeader := some (hexHmacSha256 "sec4" c4Body),
          rawBody := c4Body } =
      ⟨200, ResBody.skipped r, []⟩ :=
  handler_200_skip_on_missing_fields c4Platform _ _ "sec4" c4Event rfl rfl
    (by decide) rfl (by simp [c4Platform]) (by decide)
    (Or.inr (Or.inr (Or.inl (by decide))))
/-- C6 (amended): a missing configuration value is a hard 500 exactly on the
paths that need it — a missing webhook secret fails every POST before the
signature check; a missing sender address fails every authenticated request
that reaches email dispatch (recognized trigger, all required fields
present); a missing provider token makes the send wrapper throw, which the
route surfaces as 500. Requests answered before those points (unknown
trigger, skips, 401s) keep their earlier response. -/
theorem missing_config_500_on_demand :
    (∀ (pf : Platform) (env : Env) (req : WebhookRequest),
      req.method = "POST" → jsTruthy env.calWebhookSecret = false →
      handler pf env req = ⟨500, ResBody.errorMsg "Server configuration error", []⟩) ∧
    (∀ (pf : Platform) (env : Env) (req : WebhookRequest) (sec : String)
      (ev : WebhookPayload) (a : IcsPerson),
      req.method = "POST" → env.calWebhookSecret = some sec → sec ≠ "" →
      req.sigHeader = some (hexHmacSha256 sec req.rawBody) →
      pf.parseJson req.rawBody = some ev →
      normalizeTrigger (jsOrOpt ev.triggerEvent (jsOrOpt ev.event ev.type)) ≠
        TriggerType.unknown →
      jsTruthy (ev.payload.getD ev.self).startTime = true →
      jsTruthy (ev.payload.getD ev.self).endTime = true →
      ((ev.payload.getD ev.self).attendees.getD
        ((ev.payload.getD ev.self).attendeesList.getD [])).head? = some a →
      a.email ≠ "" →
      jsTruthy (jsOrOpt (ev.payload.getD ev.self).hostEmail
        ((ev.payload.getD ev.self).organizer.map IcsPerson.email)) = true →
      jsTruthy env.postmarkFromEmail = false →
      handler pf env req = ⟨500, ResBody.errorMsg "Server configuration error", []⟩) ∧
    (∀ (token : Option String) (params : SendEmailParams),
      jsTruthy token = false →
      sendPostmarkEmail token params =
        Except.error "Missing POSTMARK_SERVER_API_TOKEN environment variable") := by
  refine ⟨?_, ?_, ?_⟩
  · intro pf env req hm hsec
    simp [handler, hm, hsec]
  · intro pf env req sec ev a hm hsec hsne hdr hp htr hst het hatt hae hhe hfrom
    rw [handler_auth_to_process pf env req sec hm hsec hsne hdr ev hp]
    simp [handlerProcess, htr, hst, het, hatt, hae, hhe, hfrom]
  · intro token params htk
    simp [sendPostmarkEmail, htk]

/-- Witness for C6 (amended) at a POST with no secret configured. -/
theorem missing_config_500_on_demand_witness :
    handler trivialPlatform
      { calWebhookSecret := none, postmarkFromEmail := none,
        postmarkServerApiToken := none }
      { method := "POST", sigHeader := none, rawBody := "\x7b\x7d" } =
      ⟨500, ResBody.errorMsg "Server configuration error", []⟩ :=
  missing_config_500_on_demand.1 trivialPlatform _ _ rfl rfl

/-- Counterexample for C6 as frozen: a fully authenticated request whose
sender address and provider token are both unconfigured is answered 200 (the
unknown-trigger acknowledgement), not 500. -/
theorem missing_config_not_500_counterexample :
    ({ calWebhookSecret := some "sec6", postmarkFromEmail := none,
       postmarkServerApiToken := none : Env }).postmarkFromEmail = none ∧
    ({ calWebhookSecret := some "sec6", postmarkFromEmail := none,
       postmarkServerApiToken := none : Env }).postmarkServerApiToken = none ∧
    handler c6Platform
      { calWebhookSecret := some "sec6", postmarkFromEmail := none,
        postmarkServerApiToken := none }
      { method := "POST", sigHeader := some (hexHmacSha256 "sec6" c6Body),
        rawBody := c6Body } =
      ⟨200, ResBody.ignoredTrig (some "PING"), []⟩ ∧
    (handler c6Platform
      { calWebhookSecret := some "sec6", postmarkFromEmail := none,
        postmarkServerApiToken := none }
      { method := "POST", sigHeader := some (hexHmacSha256 "sec6" c6Body),
        rawBody := c6Body }).status ≠ 500 := by
  have h : handler c6Platform
      { calWebhookSecret := some "sec6", postmarkFromEmail := none,
        postmarkServerApiToken := none }
      { method := "POST", sigHeader := some (hexHmacSha256 "sec6" c6Body),
        rawBody := c6Body } =
      ⟨200, ResBody.ignoredTrig (some "PING"), []⟩ := by
    rw [handler_auth_to_process _ _ _ "sec6" rfl rfl (by decide) rfl c6Event
      (by simp [c6Platform])]
    rw [handlerProcess_unknown _ _ _ (by decide)]
    decide
  exact ⟨rfl, rfl, h, by rw [h]; decide⟩
theorem xor256_lt (x y : Nat) (hx : x < 256) (hy : y < 256) : x ^^^ y < 256 := by
  have h : (256 : Nat) = 2 ^ 8 := by norm_num
  rw [h] at hx hy ⊢
  exact Nat.xor_lt_two_pow hx hy

theorem xor_left_comm (a b c : Nat) : a ^^^ (b ^^^ c) = b ^^^ (a ^^^ c) := by
  rw [← Nat.xor_assoc, Nat.xor_comm a b, Nat.xor_assoc]

set_option maxRecDepth 4000 in
theorem xtime_lt (x : Nat) (h : x < 256) : xtime x < 256 :=
  (by decide : ∀ v : Fin 256, xtime v.val < 256) ⟨x, h⟩

theorem shiftLeft_one_xor (a b : Nat) : (a ^^^ b) <<< 1 = a <<< 1 ^^^ b <<< 1 := by
  apply Nat.eq_of_testBit_eq
  intro i
  simp only [Nat.testBit_shiftLeft, Nat.testBit_xor]
  cases hdec : decide (i ≥ 1) <;> simp

theorem two_mul_xor (a b : Nat) : 2 * (a ^^^ b) = 2 * a ^^^ 2 * b := by
  have h := shiftLeft_one_xor a b
  simpa [Nat.shiftLeft_eq, Nat.mul_comm] using h

theorem div128_xor (a b : Nat) : (a ^^^ b) / 128 = a / 128 ^^^ b / 128 := by
  have h : ∀ z : Nat, z >>> 7 = z / 128 := by
    intro z
    rw [Nat.shiftRight_eq_div_pow]
  rw [← h, ← h, ← h]
  apply Nat.eq_of_testBit_eq
  intro i
  simp [Nat.testBit_shiftRight, Nat.testBit_xor]

theorem xtime_distrib (x y : Nat) (hx : x < 256) (hy : y < 256) :
    xtime (x ^^^ y) = xtime x ^^^ xtime y := by
  have hd := div128_xor x y
  have hxy256 : x ^^^ y < 256 := xor256_lt x y hx hy
  rcases Nat.lt_or_ge x 128 with hx1 | hx1 <;> rcases Nat.lt_or_ge y 128 with hy1 | hy1
  · have h3 : (x ^^^ y) / 128 = 0 := by
      have h1 : x / 128 = 0 := by omega
      have h2 : y / 128 = 0 := by omega
      simp [hd, h1, h2]
    have hxy : x ^^^ y < 128 := by omega
    rw [xtime, xtime, xtime, if_pos hxy, if_pos hx1, if_pos hy1]
    exact two_mul_xor x y
  · have h3 : (x ^^^ y) / 128 = 1 := by
      have h1 : x / 128 = 0 := by omega
      have h2 : y / 128 = 1 := by omega
      simp [hd, h1, h2]
    have hxy : ¬ x ^^^ y < 128 := by omega
    rw [xtime, xtime, xtime, if_neg hxy, if_pos hx1, if_neg (by omega), two_mul_xor,
      Nat.xor_assoc]
  · have h3 : (x ^^^ y) / 128 = 1 := by
      have h1 : x / 128 = 1 := by omega
      have h2 : y / 128 = 0 := by omega
      simp [hd, h1, h2]
    have hxy : ¬ x ^^^ y < 128 := by omega
    rw [xtime, xtime, xtime, if_neg hxy, if_neg (by omega), if_pos hy1, two_mul_xor]
    simp [Nat.xor_assoc, Nat.xor_comm, xor_left_comm]
  · have h3 : (x ^^^ y) / 128 = 0 := by
      have h1 : x / 128 = 1 := by omega
      have h2 : y / 128 = 1 := by omega
      simp [hd, h1, h2]
    have hxy : x ^^^ y < 128 := by omega
    rw [xtime, xtime, xtime, if_pos hxy, if_neg (by omega), if_neg (by omega), two_mul_xor]
    simp [Nat.xor_assoc, Nat.xor_comm, xor_left_comm, Nat.xor_self, Nat.xor_zero]

theorem gmulFuel_lt : ∀ (k a b : Nat), a < 256 → gmulFuel k a b < 256
  | 0, _, _, _ => by simp [gmulFuel]
  | k + 1, a, b, ha => by
    simp only [gmulFuel]
    apply xor256_lt
    · split
      · exact ha
      · omega
    · exact gmulFuel_lt k (xtime a) (b / 2) (xtime_lt a ha)

theorem gmul_lt (a b : Nat) (ha : a < 256) : gmul a b < 256 :=
  gmulFuel_lt 8 a b ha

theorem gmulFuel_linear : ∀ (k x y b : Nat), x < 256 → y < 256 →
    gmulFuel k (x ^^^ y) b = gmulFuel k x b ^^^ gmulFuel k y b
  | 0, _, _, _, _, _ => by simp [gmulFuel]
  | k + 1, x, y, b, hx, hy => by
    simp only [gmulFuel]
    rw [xtime_distrib x y hx hy,
      gmulFuel_linear k (xtime x) (xtime y) (b / 2) (xtime_lt x hx) (xtime_lt y hy)]
    by_cases hb : b % 2 = 1
    · rw [if_pos hb, if_pos hb, if_pos hb]
      simp [Nat.xor_assoc, Nat.xor_comm, xor_left_comm]
    · rw [if_neg hb, if_neg hb, if_neg hb]
      simp [Nat.xor_assoc, Nat.xor_comm, xor_left_comm]

theorem gmul_linear (x y b : Nat) (hx : x < 256) (hy : y < 256) :
    gmul (x ^^^ y) b = gmul x b ^^^ gmul y b :=
  gmulFuel_linear 8 x y b hx hy

theorem gmulFuel_zero_left : ∀ k b, gmulFuel k 0 b = 0
  | 0, _ => rfl
  | k + 1, b => by
    simp [gmulFuel, xtime, gmulFuel_zero_left k]

theorem gmul_zero_left (b : Nat) : gmul 0 b = 0 := gmulFuel_zero_left 8 b
set_option maxRecDepth 4000 in
theorem gmulGroup_0_0 (x : Nat) (h : x < 256) :
    gmul (gmul x 2) 14 ^^^ gmul x 11 ^^^ gmul x 13 ^^^ gmul (gmul x 3) 9 = x :=
  (by decide : ∀ v : Fin 256, gmul (gmul v.val 2) 14 ^^^ gmul v.val 11 ^^^ gmul v.val 13 ^^^ gmul (gmul v.val 3) 9 = v.val) ⟨x, h⟩

set_option maxRecDepth 4000 in
theorem gmulGroup_0_1 (x : Nat) (h : x < 256) :
    gmul (gmul x 3) 14 ^^^ gmul (gmul x 2) 11 ^^^ gmul x 13 ^^^ gmul x 9 = 0 :=
  (by decide : ∀ v : Fin 256, gmul (gmul v.val 3) 14 ^^^ gmul (gmul v.val 2) 11 ^^^ gmul v.val 13 ^^^ gmul v.val 9 = 0) ⟨x, h⟩

set_option maxRecDepth 4000 in
theorem gmulGroup_0_2 (x : Nat) (h : x < 256) :
    gmul x 14 ^^^ gmul (gmul x 3) 11 ^^^ gmul (gmul x 2) 13 ^^^ gmul x 9 = 0 :=
  (by decide : ∀ v : Fin 256, gmul v.val 14 ^^^ gmul (gmul v.val 3) 11 ^^^ gmul (gmul v.val 2) 13 ^^^ gmul v.val 9 = 0) ⟨x, h⟩

set_option maxRecDepth 4000 in
theorem gmulGroup_0_3 (x : Nat) (h : x < 256) :
    gmul x 14 ^^^ gmul x 11 ^^^ gmul (gmul x 3) 13 ^^^ gmul (gmul x 2) 9 = 0 :=
  (by decide : ∀ v : Fin 256, gmul v.val 14 ^^^ gmul v.val 11 ^^^ gmul (gmul v.val 3) 13 ^^^ gmul (gmul v.val 2) 9 = 0) ⟨x, h⟩

set_option maxRecDepth 4000 in
theorem gmulGroup_1_0 (x : Nat) (h : x < 256) :
    gmul (gmul x 2) 9 ^^^ gmul x 14 ^^^ gmul x 11 ^^^ gmul (gmul x 3) 13 = 0 :=
  (by decide : ∀ v : Fin 256, gmul (gmul v.val 2) 9 ^^^ gmul v.val 14 ^^^ gmul v.val 11 ^^^ gmul (gmul v.val 3) 13 = 0) ⟨x, h⟩

set_option maxRecDepth 4000 in
theorem gmulGroup_1_1 (x : Nat) (h : x < 256) :
    gmul (gmul x 3) 9 ^^^ gmul (gmul x 2) 14 ^^^ gmul x 11 ^^^ gmul x 13 = x :=
  (by decide : ∀ v : Fin 256, gmul (gmul v.val 3) 9 ^^^ gmul (gmul v.val 2) 14 ^^^ gmul v.val 11 ^^^ gmul v.val 13 = v.val) ⟨x, h⟩

set_option maxRecDepth 4000 in
theorem gmulGroup_1_2 (x : Nat) (h : x < 256) :
    gmul x 9 ^^^ gmul (gmul x 3) 14 ^^^ gmul (gmul x 2) 11 ^^^ gmul x 13 = 0 :=
  (by decide : ∀ v : Fin 256, gmul v.val 9 ^^^ gmul (gmul v.val 3) 14 ^^^ gmul (gmul v.val 2) 11 ^^^ gmul v.val 13 = 0) ⟨x, h⟩

set_option maxRecDepth 4000 in
theorem gmulGroup_1_3 (x : Nat) (h : x < 256) :
    gmul x 9 ^^^ gmul x 14 ^^^ gmul (gmul x 3) 11 ^^^ gmul (gmul x 2) 13 = 0 :=
  (by decide : ∀ v : Fin 256, gmul v.val 9 ^^^ gmul v.val 14 ^^^ gmul (gmul v.val 3) 11 ^^^ gmul (gmul v.val 2) 13 = 0) ⟨x, h⟩

set_option maxRecDepth 4000 in
theorem gmulGroup_2_0 (x : Nat) (h : x < 256) :
    gmul (gmul x 2) 13 ^^^ gmul x 9 ^^^ gmul x 14 ^^^ gmul (gmul x 3) 11 = 0 :=
  (by decide : ∀ v : Fin 256, gmul (gmul v.val 2) 13 ^^^ gmul v.val 9 ^^^ gmul v.val 14 ^^^ gmul (gmul v.val 3) 11 = 0) ⟨x, h⟩

set_option maxRecDepth 4000 in
theorem gmulGroup_2_1 (x : Nat) (h : x < 256) :
    gmul (gmul x 3) 13 ^^^ gmul (gmul x 2) 9 ^^^ gmul x 14 ^^^ gmul x 11 = 0 :=
  (by decide : ∀ v : Fin 256, gmul (gmul v.val 3) 13 ^^^ gmul (gmul v.val 2) 9 ^^^ gmul v.val 14 ^^^ gmul v.val 11 = 0) ⟨x, h⟩

set_option maxRecDepth 4000 in
theorem gmulGroup_2_2 (x : Nat) (h : x < 256) :
    gmul x 13 ^^^ gmul (gmul x 3) 9 ^^^ gmul (gmul x 2) 14 ^^^ gmul x 11 = x :=
  (by decide : ∀ v : Fin 256, gmul v.val 13 ^^^ gmul (gmul v.val 3) 9 ^^^ gmul (gmul v.val 2) 14 ^^^ gmul v.val 11 = v.val) ⟨x, h⟩

set_option maxRecDepth 4000 in
theorem gmulGroup_2_3 (x : Nat) (h : x < 256) :
    gmul x 13 ^^^ gmul x 9 ^^^ gmul (gmul x 3) 14 ^^^ gmul (gmul x 2) 11 = 0 :=
  (by decide : ∀ v : Fin 256, gmul v.val 13 ^^^ gmul v.val 9 ^^^ gmul (gmul v.val 3) 14 ^^^ gmul (gmul v.val 2) 11 = 0) ⟨x, h⟩

set_option maxRecDepth 4000 in
theorem gmulGroup_3_0 (x : Nat) (h : x < 256) :
    gmul (gmul x 2) 11 ^^^ gmul x 13 ^^^ gmul x 9 ^^^ gmul (gmul x 3) 14 = 0 :=
  (by decide : ∀ v : Fin 256, gmul (gmul v.val 2) 11 ^^^ gmul v.val 13 ^^^ gmul v.val 9 ^^^ gmul (gmul v.val 3) 14 = 0) ⟨x, h⟩

set_option maxRecDepth 4000 in
theorem gmulGroup_3_1 (x : Nat) (h : x < 256) :
    gmul (gmul x 3) 11 ^^^ gmul (gmul x 2) 13 ^^^ gmul x 9 ^^^ gmul x 14 = 0 :=
  (by decide : ∀ v : Fin 256, gmul (gmul v.val 3) 11 ^^^ gmul (gmul v.val 2) 13 ^^^ gmul v.val 9 ^^^ gmul v.val 14 = 0) ⟨x, h⟩

set_option maxRecDepth 4000 in
theorem gmulGroup_3_2 (x : Nat) (h : x < 256) :
    gmul x 11 ^^^ gmul (gmul x 3) 13 ^^^ gmul (gmul x 2) 9 ^^^ gmul x 14 = 0 :=
  (by decide : ∀ v : Fin 256, gmul v.val 11 ^^^ gmul (gmul v.val 3) 13 ^^^ gmul (gmul v.val 2) 9 ^^^ gmul v.val 14 = 0) ⟨x, h⟩

set_option maxRecDepth 4000 in
theorem gmulGroup_3_3 (x : Nat) (h : x < 256) :
    gmul x 11 ^^^ gmul x 13 ^^^ gmul (gmul x 3) 9 ^^^ gmul (gmul x 2) 14 = x :=
  (by decide : ∀ v : Fin 256, gmul v.val 11 ^^^ gmul v.val 13 ^^^ gmul (gmul v.val 3) 9 ^^^ gmul (gmul v.val 2) 14 = v.val) ⟨x, h⟩
theorem gmul_linear4 (p q r s n : Nat) (hp : p < 256) (hq : q < 256)
    (hr : r < 256) (hs : s < 256) :
    gmul (p ^^^ q ^^^ r ^^^ s) n = gmul p n ^^^ gmul q n ^^^ gmul r n ^^^ gmul s n := by
  rw [gmul_linear _ s n (xor256_lt _ _ (xor256_lt _ _ hp hq) hr) hs,
    gmul_linear _ r n (xor256_lt _ _ hp hq) hr, gmul_linear p q n hp hq]

set_option maxHeartbeats 3200000 in
theorem invMixColumn_mixColumn (a b c d : Nat) (ha : a < 256) (hb : b < 256)
    (hc : c < 256) (hd : d < 256) :
    invMixColumn (mixColumn a b c d).1 (mixColumn a b c d).2.1
      (mixColumn a b c d).2.2.1 (mixColumn a b c d).2.2.2 = (a, b, c, d) := by
  simp only [mixColumn, invMixColumn, Prod.mk.injEq]
  refine ⟨?_, ?_, ?_, ?_⟩
  · rw [gmul_linear4 _ _ _ _ _ (gmul_lt a 2 ha) (gmul_lt b 3 hb) hc hd, gmul_linear4 _ _ _ _ _ ha (gmul_lt b 2 hb) (gmul_lt c 3 hc) hd, gmul_linear4 _ _ _ _ _ ha hb (gmul_lt c 2 hc) (gmul_lt d 3 hd), gmul_linear4 _ _ _ _ _ (gmul_lt a 3 ha) hb hc (gmul_lt d 2 hd)]
    trans ((gmul (gmul a 2) 14 ^^^ gmul a 11 ^^^ gmul a 13 ^^^ gmul (gmul a 3) 9) ^^^ (gmul (gmul b 3) 14 ^^^ gmul (gmul b 2) 11 ^^^ gmul b 13 ^^^ gmul b 9) ^^^ (gmul c 14 ^^^ gmul (gmul c 3) 11 ^^^ gmul (gmul c 2) 13 ^^^ gmul c 9) ^^^ (gmul d 14 ^^^ gmul d 11 ^^^ gmul (gmul d 3) 13 ^^^ gmul (gmul d 2) 9))
    · simp only [Nat.xor_assoc, Nat.xor_comm, xor_left_comm]
    · rw [gmulGroup_0_0 a ha, gmulGroup_0_1 b hb, gmulGroup_0_2 c hc, gmulGroup_0_3 d hd]
      simp
  · rw [gmul_linear4 _ _ _ _ _ (gmul_lt a 2 ha) (gmul_lt b 3 hb) hc hd, gmul_linear4 _ _ _ _ _ ha (gmul_lt b 2 hb) (gmul_lt c 3 hc) hd, gmul_linear4 _ _ _ _ _ ha hb (gmul_lt c 2 hc) (gmul_lt d 3 hd), gmul_linear4 _ _ _ _ _ (gmul_lt a 3 ha) hb hc (gmul_lt d 2 hd)]
    trans ((gmul (gmul a 2) 9 ^^^ gmul a 14 ^^^ gmul a 11 ^^^ gmul (gmul a 3) 13) ^^^ (gmul (gmul b 3) 9 ^^^ gmul (gmul b 2) 14 ^^^ gmul b 11 ^^^ gmul b 13) ^^^ (gmul c 9 ^^^ gmul (gmul c 3) 14 ^^^ gmul (gmul c 2) 11 ^^^ gmul c 13) ^^^ (gmul d 9 ^^^ gmul d 14 ^^^ gmul (gmul d 3) 11 ^^^ gmul (gmul d 2) 13))
    · simp only [Nat.xor_assoc, Nat.xor_comm, xor_left_comm]
    · rw [gmulGroup_1_0 a ha, gmulGroup_1_1 b hb, gmulGroup_1_2 c hc, gmulGroup_1_3 d hd]
      simp
  · rw [gmul_linear4 _ _ _ _ _ (gmul_lt a 2 ha) (gmul_lt b 3 hb) hc hd, gmul_linear4 _ _ _ _ _ ha (gmul_lt b 2 hb) (gmul_lt c 3 hc) hd, gmul_linear4 _ _ _ _ _ ha hb (gmul_lt c 2 hc) (gmul_lt d 3 hd), gmul_linear4 _ _ _ _ _ (gmul_lt a 3 ha) hb hc (gmul_lt d 2 hd)]
    trans ((gmul (gmul a 2) 13 ^^^ gmul a 9 ^^^ gmul a 14 ^^^ gmul (gmul a 3) 11) ^^^ (gmul (gmul b 3) 13 ^^^ gmul (gmul b 2) 9 ^^^ gmul b 14 ^^^ gmul b 11) ^^^ (gmul c 13 ^^^ gmul (gmul c 3) 9 ^^^ gmul (gmul c 2) 14 ^^^ gmul c 11) ^^^ (gmul d 13 ^^^ gmul d 9 ^^^ gmul (gmul d 3) 14 ^^^ gmul (gmul d 2) 11))
    · simp only [Nat.xor_assoc, Nat.xor_comm, xor_left_comm]
    · rw [gmulGroup_2_0 a ha, gmulGroup_2_1 b hb, gmulGroup_2_2 c hc, gmulGroup_2_3 d hd]
      simp
  · rw [gmul_linear4 _ _ _ _ _ (gmul_lt a 2 ha) (gmul_lt b 3 hb) hc hd, gmul_linear4 _ _ _ _ _ ha (gmul_lt b 2 hb) (gmul_lt c 3 hc) hd, gmul_linear4 _ _ _ _ _ ha hb (gmul_lt c 2 hc) (gmul_lt d 3 hd), gmul_linear4 _ _ _ _ _ (gmul_lt a 3 ha) hb hc (gmul_lt d 2 hd)]
    trans ((gmul (gmul a 2) 11 ^^^ gmul a 13 ^^^ gmul a 9 ^^^ gmul (gmul a 3) 14) ^^^ (gmul (gmul b 3) 11 ^^^ gmul (gmul b 2) 13 ^^^ gmul b 9 ^^^ gmul b 14) ^^^ (gmul c 11 ^^^ gmul (gmul c 3) 13 ^^^ gmul (gmul c 2) 9 ^^^ gmul c 14) ^^^ (gmul d 11 ^^^ gmul d 13 ^^^ gmul (gmul d 3) 9 ^^^ gmul (gmul d 2) 14))
    · simp only [Nat.xor_assoc, Nat.xor_comm, xor_left_comm]
    · rw [gmulGroup_3_0 a ha, gmulGroup_3_1 b hb, gmulGroup_3_2 c hc, gmulGroup_3_3 d hd]
      simp
set_option maxRecDepth 40000 in
theorem invSboxB_sboxB (x : Nat) (h : x < 256) : invSboxB (sboxB x) = x :=
  (by decide : ∀ v : Fin 256, invSboxB (sboxB v.val) = v.val) ⟨x, h⟩

set_option maxRecDepth 40000 in
theorem sboxB_lt (x : Nat) : sboxB x < 256 := by
  by_cases h : x < 256
  · exact (by decide : ∀ v : Fin 256, sboxB v.val < 256) ⟨x, h⟩
  · have : sboxTable.length ≤ x := by
      have : sboxTable.length = 256 := by decide
      omega
    rw [sboxB, List.getD_eq_default _ _ this]
    omega

theorem invSubBytes_subBytes (l : List Nat) (h : ∀ x ∈ l, x < 256) :
    invSubBytes (subBytes l) = l := by
  induction l with
  | nil => rfl
  | cons a t ih =>
    simp only [subBytes, invSubBytes, List.map_cons, List.map_map] at ih ⊢
    rw [List.cons.injEq]
    constructor
    · exact invSboxB_sboxB a (h a (by simp))
    · exact ih (fun x hx => h x (by simp [hx]))

theorem subBytes_length (l : List Nat) : (subBytes l).length = l.length := by
  simp [subBytes]

theorem subBytes_lt (l : List Nat) : ∀ x ∈ subBytes l, x < 256 := by
  intro x hx
  simp only [subBytes, List.mem_map] at hx
  obtain ⟨y, _, rfl⟩ := hx
  exact sboxB_lt y

theorem invShiftRows_shiftRows (l : List Nat) (h : l.length = 16) :
    invShiftRows (shiftRows l) = l := by
  rcases l with _|⟨a0,_|⟨a1,_|⟨a2,_|⟨a3,_|⟨a4,_|⟨a5,_|⟨a6,_|⟨a7,_|⟨a8,_|⟨a9,_|⟨b0,_|⟨b1,_|⟨b2,_|⟨b3,_|⟨b4,_|⟨b5,rest⟩⟩⟩⟩⟩⟩⟩⟩⟩⟩⟩⟩⟩⟩⟩⟩ <;>
    simp at h
  cases rest with
  | nil => rfl
  | cons x xs => simp at h

theorem shiftRows_length (l : List Nat) (h : l.length = 16) :
    (shiftRows l).length = 16 := by
  rcases l with _|⟨a0,_|⟨a1,_|⟨a2,_|⟨a3,_|⟨a4,_|⟨a5,_|⟨a6,_|⟨a7,_|⟨a8,_|⟨a9,_|⟨b0,_|⟨b1,_|⟨b2,_|⟨b3,_|⟨b4,_|⟨b5,rest⟩⟩⟩⟩⟩⟩⟩⟩⟩⟩⟩⟩⟩⟩⟩⟩ <;>
    simp at h
  cases rest with
  | nil => rfl
  | cons x xs => simp at h

theorem shiftRows_lt (l : List Nat) (h : l.length = 16) (hb : ∀ x ∈ l, x < 256) :
    ∀ x ∈ shiftRows l, x < 256 := by
  rcases l with _|⟨a0,_|⟨a1,_|⟨a2,_|⟨a3,_|⟨a4,_|⟨a5,_|⟨a6,_|⟨a7,_|⟨a8,_|⟨a9,_|⟨b0,_|⟨b1,_|⟨b2,_|⟨b3,_|⟨b4,_|⟨b5,rest⟩⟩⟩⟩⟩⟩⟩⟩⟩⟩⟩⟩⟩⟩⟩⟩ <;>
    simp at h
  cases rest with
  | nil =>
    intro x hx
    simp only [shiftRows, List.mem_cons, List.not_mem_nil, or_false] at hx
    rcases hx with rfl|rfl|rfl|rfl|rfl|rfl|rfl|rfl|rfl|rfl|rfl|rfl|rfl|rfl|rfl|rfl <;>
      apply hb <;> simp
  | cons x xs => simp at h

theorem invMixColumns_mixColumns : ∀ (l : List Nat), (∀ x ∈ l, x < 256) →
    invMixColumns (mixColumns l) = l
  | [], _ => rfl
  | [x], _ => rfl
  | [x, y], _ => rfl
  | [x, y, z], _ => rfl
  | a :: b :: c :: d :: rest, h => by
    have ha : a < 256 := h a (by simp)
    have hb : b < 256 := h b (by simp)
    have hc : c < 256 := h c (by simp)
    have hd : d < 256 := h d (by simp)
    have hmix := invMixColumn_mixColumn a b c d ha hb hc hd
    simp only [mixColumns, invMixColumns]
    rw [List.cons.injEq, List.cons.injEq, List.cons.injEq, List.cons.injEq]
    have h0 := congrArg (fun p => p.1) hmix
    have h1 := congrArg (fun p => p.2.1) hmix
    have h2 := congrArg (fun p => p.2.2.1) hmix
    have h3 := congrArg (fun p => p.2.2.2) hmix
    simp only at h0 h1 h2 h3
    exact ⟨h0, h1, h2, h3, invMixColumns_mixColumns rest
      (fun x hx => h x (by simp [hx]))⟩

theorem mixColumns_length : ∀ l : List Nat, (mixColumns l).length = l.length
  | [] => rfl
  | [_] => rfl
  | [_, _] => rfl
  | [_, _, _] => rfl
  | _ :: _ :: _ :: _ :: rest => by
    simp only [mixColumns, List.length_cons]
    rw [mixColumns_length rest]

theorem mixColumn_lt (a b c d : Nat) (ha : a < 256) (hb : b < 256) (hc : c < 256)
    (hd : d < 256) :
    (mixColumn a b c d).1 < 256 ∧ (mixColumn a b c d).2.1 < 256 ∧
    (mixColumn a b c d).2.2.1 < 256 ∧ (mixColumn a b c d).2.2.2 < 256 := by
  simp only [mixColumn]
  exact ⟨xor256_lt _ _ (xor256_lt _ _ (xor256_lt _ _ (gmul_lt a 2 ha) (gmul_lt b 3 hb)) hc) hd,
    xor256_lt _ _ (xor256_lt _ _ (xor256_lt _ _ ha (gmul_lt b 2 hb)) (gmul_lt c 3 hc)) hd,
    xor256_lt _ _ (xor256_lt _ _ (xor256_lt _ _ ha hb) (gmul_lt c 2 hc)) (gmul_lt d 3 hd),
    xor256_lt _ _ (xor256_lt _ _ (xor256_lt _ _ (gmul_lt a 3 ha) hb) hc) (gmul_lt d 2 hd)⟩

theorem mixColumns_lt : ∀ l : List Nat, (∀ x ∈ l, x < 256) →
    ∀ x ∈ mixColumns l, x < 256
  | [], _ => by simp [mixColumns]
  | [a], h => by simpa [mixColumns] using h
  | [a, b], h => by simpa [mixColumns] using h
  | [a, b, c], h => by simpa [mixColumns] using h
  | a :: b :: c :: d :: rest, h => by
    have hm := mixColumn_lt a b c d (h a (by simp)) (h b (by simp)) (h c (by simp))
      (h d (by simp))
    intro x hx
    simp only [mixColumns, List.mem_cons] at hx
    rcases hx with rfl|rfl|rfl|rfl|hx
    · exact hm.1
    · exact hm.2.1
    · exact hm.2.2.1
    · exact hm.2.2.2
    · exact mixColumns_lt rest (fun y hy => h y (by simp [hy])) x hx

theorem xorBytes_length (a b : List Nat) :
    (xorBytes a b).length = min a.length b.length := by
  simp [xorBytes]

theorem xorBytes_cancel : ∀ (a k : List Nat), a.length = k.length →
    xorBytes (xorBytes a k) k = a
  | [], [], _ => rfl
  | [], _ :: _, h => by simp at h
  | _ :: _, [], h => by simp at h
  | x :: a, y :: k, h => by
    have h' : a.length = k.length := by simpa using h
    simp only [xorBytes, List.zipWith_cons_cons, List.cons.injEq]
    exact ⟨by rw [Nat.xor_assoc, Nat.xor_self, Nat.xor_zero],
      xorBytes_cancel a k h'⟩

theorem xorBytes_lt (a b : List Nat) (ha : ∀ x ∈ a, x < 256) (hb : ∀ x ∈ b, x < 256) :
    ∀ x ∈ xorBytes a b, x < 256 := by
  intro x hx
  rw [xorBytes, List.mem_iff_getElem] at hx
  obtain ⟨n, hn, rfl⟩ := hx
  rw [List.length_zipWith] at hn
  rw [List.getElem_zipWith]
  exact xor256_lt _ _ (ha _ (List.getElem_mem (by omega)))
    (hb _ (List.getElem_mem (by omega)))

theorem aesEncRound_wf (k st : List Nat) (hk : k.length = 16)
    (hkb : ∀ x ∈ k, x < 256) (hst : st.length = 16) (hstb : ∀ x ∈ st, x < 256) :
    (aesEncRound k st).length = 16 ∧ ∀ x ∈ aesEncRound k st, x < 256 := by
  have h1 : (subBytes st).length = 16 := by rw [subBytes_length, hst]
  have h2 : (shiftRows (subBytes st)).length = 16 := shiftRows_length _ h1
  have h3 : (mixColumns (shiftRows (subBytes st))).length = 16 := by
    rw [mixColumns_length, h2]
  refine ⟨?_, ?_⟩
  · rw [aesEncRound, xorBytes_length, h3, hk]; rfl
  · exact xorBytes_lt _ _
      (mixColumns_lt _ (shiftRows_lt _ h1 (subBytes_lt st))) hkb

theorem aesDecRound_aesEncRound (k st : List Nat) (hk : k.length = 16)
    (hst : st.length = 16) (hstb : ∀ x ∈ st, x < 256) :
    aesDecRound k (aesEncRound k st) = st := by
  have h1 : (subBytes st).length = 16 := by rw [subBytes_length, hst]
  have h2 : (shiftRows (subBytes st)).length = 16 := shiftRows_length _ h1
  have h3 : (mixColumns (shiftRows (subBytes st))).length = 16 := by
    rw [mixColumns_length, h2]
  rw [aesDecRound, aesEncRound,
    xorBytes_cancel _ k (by rw [h3, hk]),
    invMixColumns_mixColumns _ (shiftRows_lt _ h1 (subBytes_lt st)),
    invShiftRows_shiftRows _ h1,
    invSubBytes_subBytes _ hstb]

theorem aesFinalRound_wf (k st : List Nat) (hk : k.length = 16)
    (hkb : ∀ x ∈ k, x < 256) (hst : st.length = 16) (hstb : ∀ x ∈ st, x < 256) :
    (xorBytes (shiftRows (subBytes st)) k).length = 16 ∧
    ∀ x ∈ xorBytes (shiftRows (subBytes st)) k, x < 256 := by
  have h1 : (subBytes st).length = 16 := by rw [subBytes_length, hst]
  have h2 : (shiftRows (subBytes st)).length = 16 := shiftRows_length _ h1
  refine ⟨by rw [xorBytes_length, h2, hk]; rfl, ?_⟩
  exact xorBytes_lt _ _ (shiftRows_lt _ h1 (subBytes_lt st)) hkb

theorem aesDecAux_aesEncAux : ∀ (keys : List (List Nat)) (st : List Nat),
    (∀ k ∈ keys, k.length = 16 ∧ ∀ x ∈ k, x < 256) →
    st.length = 16 → (∀ x ∈ st, x < 256) →
    aesDecAux keys (aesEncAux keys st) = st
  | [], st, _, _, _ => rfl
  | [k], st, hkeys, hst, hstb => by
    obtain ⟨hk, hkb⟩ := hkeys k (by simp)
    have h1 : (subBytes st).length = 16 := by rw [subBytes_length, hst]
    show invSubBytes (invShiftRows (xorBytes (xorBytes (shiftRows (subBytes st)) k) k)) = st
    rw [xorBytes_cancel _ k (by rw [shiftRows_length _ h1, hk]),
      invShiftRows_shiftRows _ h1,
      invSubBytes_subBytes _ hstb]
  | k :: k' :: rest, st, hkeys, hst, hstb => by
    obtain ⟨hk, hkb⟩ := hkeys k (by simp)
    have hwf := aesEncRound_wf k st hk hkb hst hstb
    show aesDecRound k (aesDecAux (k' :: rest) (aesEncAux (k' :: rest) (aesEncRound k st))) = st
    rw [aesDecAux_aesEncAux (k' :: rest) (aesEncRound k st)
      (fun kk hkk => hkeys kk (by simp [hkk]) ) hwf.1 hwf.2]
    exact aesDecRound_aesEncRound k st hk hst hstb

theorem aesEncAux_wf : ∀ (keys : List (List Nat)) (st : List Nat),
    (∀ k ∈ keys, k.length = 16 ∧ ∀ x ∈ k, x < 256) →
    st.length = 16 → (∀ x ∈ st, x < 256) →
    (aesEncAux keys st).length = 16 ∧ ∀ x ∈ aesEncAux keys st, x < 256
  | [], st, _, hst, hstb => ⟨hst, hstb⟩
  | [k], st, hkeys, hst, hstb => by
    obtain ⟨hk, hkb⟩ := hkeys k (by simp)
    exact aesFinalRound_wf k st hk hkb hst hstb
  | k :: k' :: rest, st, hkeys, hst, hstb => by
    obtain ⟨hk, hkb⟩ := hkeys k (by simp)
    have hwf := aesEncRound_wf k st hk hkb hst hstb
    exact aesEncAux_wf (k' :: rest) (aesEncRound k st)
      (fun kk hkk => hkeys kk (by simp [hkk])) hwf.1 hwf.2

theorem aesDecBlock_aesEncBlock (keys : List (List Nat)) (st : List Nat)
    (hkeys : ∀ k ∈ keys, k.length = 16 ∧ ∀ x ∈ k, x < 256)
    (hst : st.length = 16) (hstb : ∀ x ∈ st, x < 256) :
    aesDecBlock keys (aesEncBlock keys st) = st := by
  cases keys with
  | nil => rfl
  | cons k0 rest =>
    obtain ⟨hk0, hk0b⟩ := hkeys k0 (by simp)
    have hx : (xorBytes st k0).length = 16 := by rw [xorBytes_length, hst, hk0]; rfl
    have hxb : ∀ x ∈ xorBytes st k0, x < 256 := xorBytes_lt _ _ hstb hk0b
    show xorBytes (aesDecAux rest (aesEncAux rest (xorBytes st k0))) k0 = st
    rw [aesDecAux_aesEncAux rest (xorBytes st k0)
      (fun kk hkk => hkeys kk (by simp [hkk])) hx hxb]
    exact xorBytes_cancel st k0 (by rw [hst, hk0])

theorem aesEncBlock_wf (keys : List (List Nat)) (st : List Nat)
    (hkeys : ∀ k ∈ keys, k.length = 16 ∧ ∀ x ∈ k, x < 256)
    (hst : st.length = 16) (hstb : ∀ x ∈ st, x < 256) :
    (aesEncBlock keys st).length = 16 ∧ ∀ x ∈ aesEncBlock keys st, x < 256 := by
  cases keys with
  | nil => exact ⟨hst, hstb⟩
  | cons k0 rest =>
    obtain ⟨hk0, hk0b⟩ := hkeys k0 (by simp)
    have hx : (xorBytes st k0).length = 16 := by rw [xorBytes_length, hst, hk0]; rfl
    have hxb : ∀ x ∈ xorBytes st k0, x < 256 := xorBytes_lt _ _ hstb hk0b
    exact aesEncAux_wf rest (xorBytes st k0)
      (fun kk hkk => hkeys kk (by simp [hkk])) hx hxb

theorem getD_mem_of_lt {α : Type} (l : List α) (n : Nat) (d : α) (h : n < l.length) :
    l.getD n d ∈ l := by
  rw [List.getD_eq_getElem l d h]
  exact List.getElem_mem h

/-- Wellformedness of the word list during key expansion. -/
theorem rconWord_wf (i : Nat) : (rconWord i).length = 4 ∧ ∀ x ∈ rconWord i, x < 256 := by
  rw [rconWord]
  by_cases h : i - 1 < 7
  · interval_cases hi : (i - 1)  <;> simp_all
  · rw [List.getD_eq_default]
    · constructor
      · rfl
      · intro x hx
        simp at hx
        omega
    · simp
      omega

theorem subWord_wf (w : List Nat) (h : w.length = 4) :
    (subWord w).length = 4 ∧ ∀ x ∈ subWord w, x < 256 := by
  constructor
  · simp [subWord, h]
  · intro x hx
    simp only [subWord, List.mem_map] at hx
    obtain ⟨y, _, rfl⟩ := hx
    exact sboxB_lt y

theorem rotWord_wf (w : List Nat) (h : w.length = 4) (hb : ∀ x ∈ w, x < 256) :
    (rotWord w).length = 4 ∧ ∀ x ∈ rotWord w, x < 256 := by
  cases w with
  | nil => simp at h
  | cons a t =>
    constructor
    · simp only [rotWord, List.length_append, List.length_cons] at h ⊢
      simp
      omega
    · intro x hx
      simp only [rotWord, List.mem_append, List.mem_cons] at hx
      apply hb
      rcases hx with hx | hx
      · simp [hx]
      · simp at hx
        simp [hx]

theorem xorBytes_wf4 (a b : List Nat) (ha4 : a.length = 4) (hb4 : b.length = 4)
    (hab : ∀ x ∈ a, x < 256) (hbb : ∀ x ∈ b, x < 256) :
    (xorBytes a b).length = 4 ∧ ∀ x ∈ xorBytes a b, x < 256 := by
  refine ⟨by rw [xorBytes_length, ha4, hb4]; rfl, xorBytes_lt a b hab hbb⟩

theorem keyExpandStep_wf (ws : List (List Nat)) (h : wfWords ws) :
    wfWords (keyExpandStep ws) ∧ (keyExpandStep ws).length = ws.length + 1 := by
  obtain ⟨h8, hws⟩ := h
  have hprev : ws.getD (ws.length - 1) [] ∈ ws :=
    getD_mem_of_lt _ _ _ (by omega)
  have hprev8 : ws.getD (ws.length - 8) [] ∈ ws :=
    getD_mem_of_lt _ _ _ (by omega)
  obtain ⟨hp4, hpb⟩ := hws _ hprev
  obtain ⟨hq4, hqb⟩ := hws _ hprev8
  have htemp : ∀ t, t = (if ws.length % 8 = 0 then
      xorBytes (subWord (rotWord (ws.getD (ws.length - 1) [])))
        (rconWord (ws.length / 8))
    else if ws.length % 8 = 4 then subWord (ws.getD (ws.length - 1) [])
    else ws.getD (ws.length - 1) []) → t.length = 4 ∧ ∀ x ∈ t, x < 256 := by
    intro t ht
    subst ht
    split
    · obtain ⟨hr4, hrb⟩ := rotWord_wf _ hp4 hpb
      obtain ⟨hs4, hsb⟩ := subWord_wf _ hr4
      obtain ⟨hc4, hcb⟩ := rconWord_wf (ws.length / 8)
      exact xorBytes_wf4 _ _ hs4 hc4 hsb hcb
    · split
      · exact subWord_wf _ hp4
      · exact ⟨hp4, hpb⟩
  obtain ⟨ht4, htb⟩ := htemp _ rfl
  constructor
  · constructor
    · simp only [keyExpandStep, List.length_append, List.length_cons]
      omega
    · intro w hw
      simp only [keyExpandStep, List.mem_append, List.mem_cons] at hw
      rcases hw with hw | hw
      · exact hws w hw
      · simp only [List.not_mem_nil, or_false] at hw
        subst hw
        exact xorBytes_wf4 _ _ hq4 ht4 hqb htb
  · simp [keyExpandStep]

theorem keyExpandIter_wf : ∀ (n : Nat) (ws : List (List Nat)), wfWords ws →
    wfWords (keyExpandIter n ws) ∧
    (keyExpandIter n ws).length = ws.length + n
  | 0, ws, h => ⟨h, rfl⟩
  | n + 1, ws, h => by
    obtain ⟨h1, h2⟩ := keyExpandStep_wf ws h
    obtain ⟨h3, h4⟩ := keyExpandIter_wf n (keyExpandStep ws) h1
    show wfWords (keyExpandIter n (keyExpandStep ws)) ∧
      (keyExpandIter n (keyExpandStep ws)).length = ws.length + (n + 1)
    exact ⟨h3, by rw [h4, h2]; omega⟩

theorem words4Fuel_wf {α : Type} (P : α → Prop) : ∀ (fuel : Nat) (l : List α),
    l.length ≤ fuel → l.length % 4 = 0 → (∀ x ∈ l, P x) →
    (words4Fuel fuel l).length = l.length / 4 ∧
    ∀ w ∈ words4Fuel fuel l, w.length = 4 ∧ ∀ x ∈ w, P x
  | 0, l, hf, _, _ => by
    have : l = [] := by
      cases l with
      | nil => rfl
      | cons a t => simp at hf
    subst this
    simp [words4Fuel]
  | fuel + 1, l, hf, h4, hP => by
    cases l with
    | nil => simp [words4Fuel]
    | cons a t =>
      have hlen : (a :: t).length % 4 = 0 := h4
      have hge : 4 ≤ (a :: t).length := by
        simp only [List.length_cons] at hlen ⊢
        omega
      have hdrop4 : ((a :: t).drop 4).length = (a :: t).length - 4 := by
        simp [List.length_drop]
      have ih := words4Fuel_wf P fuel ((a :: t).drop 4)
        (by rw [hdrop4]; simp only [List.length_cons] at hf ⊢; omega)
        (by rw [hdrop4]; omega)
        (fun x hx => hP x (List.mem_of_mem_drop hx))
      constructor
      · show ((a :: t).take 4 :: words4Fuel fuel ((a :: t).drop 4)).length = _
        simp only [List.length_cons]
        rw [ih.1, hdrop4]
        simp only [List.length_cons] at hlen ⊢
        omega
      · intro w hw
        show w.length = 4 ∧ ∀ x ∈ w, P x
        rcases List.mem_cons.mp hw with rfl | hw
        · constructor
          · rw [List.length_take]
            omega
          · exact fun x hx => hP x (List.mem_of_mem_take hx)
        · exact ih.2 w hw

theorem sum_map_length_four {α : Type} : ∀ (g : List (List α)),
    (∀ w ∈ g, w.length = 4) → (g.map List.length).sum = 4 * g.length
  | [], _ => rfl
  | w :: rest, h => by
    simp only [List.map_cons, List.sum_cons, List.length_cons,
      h w (by simp), sum_map_length_four rest (fun v hv => h v (by simp [hv]))]
    ring

theorem keySchedule_wf (key : List Nat) (h32 : key.length = 32)
    (hb : ∀ x ∈ key, x < 256) :
    ∀ k ∈ keySchedule key, k.length = 16 ∧ ∀ x ∈ k, x < 256 := by
  have hws0 := words4Fuel_wf (· < 256) key.length key (le_refl _)
    (by omega) hb
  have hwf0 : wfWords (words4Fuel key.length key) := by
    refine ⟨?_, hws0.2⟩
    rw [hws0.1, h32]
  have hiter := keyExpandIter_wf 52 (words4Fuel key.length key) hwf0
  have hlen60 : (keyExpandIter 52 (words4Fuel key.length key)).length = 60 := by
    rw [hiter.2, hws0.1, h32]
  have hgrp := words4Fuel_wf (fun w => w.length = 4 ∧ ∀ x ∈ w, x < 256)
    (keyExpandIter 52 (words4Fuel key.length key)).length
    (keyExpandIter 52 (words4Fuel key.length key)) (le_refl _)
    (by rw [hlen60])
    (fun w hw => hiter.1.2 w hw)
  intro k hk
  simp only [keySchedule, List.mem_map] at hk
  obtain ⟨g, hg, rfl⟩ := hk
  obtain ⟨hg4, hgw⟩ := hgrp.2 g hg
  constructor
  · rw [List.length_flatten, sum_map_length_four g (fun w hw => (hgw w hw).1), hg4]
  · intro x hx
    rw [List.mem_flatten] at hx
    obtain ⟨w, hw, hxw⟩ := hx
    exact (hgw w hw).2 x hxw

/-! CBC inversion, block chunking, padding and hex round trips. -/

theorem cbcDecAux_cbcEncAux (keys : List (List Nat))
    (hkeys : ∀ k ∈ keys, k.length = 16 ∧ ∀ x ∈ k, x < 256) :
    ∀ (blocks : List (List Nat)) (prev : List Nat),
    prev.length = 16 → (∀ x ∈ prev, x < 256) →
    (∀ b ∈ blocks, b.length = 16 ∧ ∀ x ∈ b, x < 256) →
    cbcDecAux keys prev (cbcEncAux keys prev blocks) = blocks
  | [], _, _, _, _ => rfl
  | b :: rest, prev, hp16, hpb, hblocks => by
    obtain ⟨hb16, hbb⟩ := hblocks b (by simp)
    have hx16 : (xorBytes b prev).length = 16 := by
      rw [xorBytes_length, hb16, hp16]; rfl
    have hxb : ∀ x ∈ xorBytes b prev, x < 256 := xorBytes_lt _ _ hbb hpb
    have hc := aesEncBlock_wf keys (xorBytes b prev) hkeys hx16 hxb
    show xorBytes (aesDecBlock keys (aesEncBlock keys (xorBytes b prev))) prev ::
        cbcDecAux keys (aesEncBlock keys (xorBytes b prev))
          (cbcEncAux keys (aesEncBlock keys (xorBytes b prev)) rest) =
      b :: rest
    rw [aesDecBlock_aesEncBlock keys (xorBytes b prev) hkeys hx16 hxb]
    rw [List.cons.injEq]
    exact ⟨xorBytes_cancel b prev (by rw [hb16, hp16]),
      cbcDecAux_cbcEncAux keys hkeys rest _ hc.1 hc.2
        (fun v hv => hblocks v (by simp [hv]))⟩

theorem cbcEncAux_wf (keys : List (List Nat))
    (hkeys : ∀ k ∈ keys, k.length = 16 ∧ ∀ x ∈ k, x < 256) :
    ∀ (blocks : List (List Nat)) (prev : List Nat),
    prev.length = 16 → (∀ x ∈ prev, x < 256) →
    (∀ b ∈ blocks, b.length = 16 ∧ ∀ x ∈ b, x < 256) →
    ∀ c ∈ cbcEncAux keys prev blocks, c.length = 16 ∧ ∀ x ∈ c, x < 256
  | [], _, _, _, _ => by simp [cbcEncAux]
  | b :: rest, prev, hp16, hpb, hblocks => by
    obtain ⟨hb16, hbb⟩ := hblocks b (by simp)
    have hx16 : (xorBytes b prev).length = 16 := by
      rw [xorBytes_length, hb16, hp16]; rfl
    have hxb : ∀ x ∈ xorBytes b prev, x < 256 := xorBytes_lt _ _ hbb hpb
    have hc := aesEncBlock_wf keys (xorBytes b prev) hkeys hx16 hxb
    intro c hc'
    show c.length = 16 ∧ ∀ x ∈ c, x < 256
    rcases List.mem_cons.mp hc' with rfl | hc'
    · exact hc
    · exact cbcEncAux_wf keys hkeys rest _ hc.1 hc.2
        (fun v hv => hblocks v (by simp [hv])) c hc'

theorem chunks16Fuel_flatten : ∀ (fuel : Nat) (l : List Nat), l.length ≤ fuel →
    (chunks16Fuel fuel l).flatten = l
  | 0, l, hf => by
    cases l with
    | nil => rfl
    | cons a t => simp at hf
  | fuel + 1, l, hf => by
    cases l with
    | nil => rfl
    | cons a t =>
      show ((a :: t).take 16 :: chunks16Fuel fuel ((a :: t).drop 16)).flatten = a :: t
      rw [List.flatten_cons, chunks16Fuel_flatten fuel ((a :: t).drop 16)
        (by simp only [List.length_drop, List.length_cons] at hf ⊢; omega)]
      exact List.take_append_drop 16 (a :: t)

theorem chunks16_flatten (l : List Nat) : (chunks16 l).flatten = l :=
  chunks16Fuel_flatten l.length l (le_refl _)

theorem chunks16Fuel_wf : ∀ (fuel : Nat) (l : List Nat), l.length ≤ fuel →
    l.length % 16 = 0 → (∀ x ∈ l, x < 256) →
    ∀ b ∈ chunks16Fuel fuel l, b.length = 16 ∧ ∀ x ∈ b, x < 256
  | 0, l, _, _, _ => by
    intro b hb
    cases l with
    | nil => simp [chunks16Fuel] at hb
    | cons a t => simp [chunks16Fuel] at hb
  | fuel + 1, l, hf, h16, hb => by
    cases l with
    | nil => simp [chunks16Fuel]
    | cons a t =>
      have hge : 16 ≤ (a :: t).length := by
        simp only [List.length_cons] at h16 ⊢
        omega
      intro b hbm
      rcases List.mem_cons.mp hbm with rfl | hbm
      · constructor
        · rw [List.length_take]
          omega
        · exact fun x hx => hb x (List.mem_of_mem_take hx)
      · exact chunks16Fuel_wf fuel ((a :: t).drop 16)
          (by simp only [List.length_drop, List.length_cons] at hf ⊢; omega)
          (by simp only [List.length_drop]; omega)
          (fun x hx => hb x (List.mem_of_mem_drop hx)) b hbm

theorem chunks16_wf (l : List Nat) (h16 : l.length % 16 = 0)
    (hb : ∀ x ∈ l, x < 256) :
    ∀ b ∈ chunks16 l, b.length = 16 ∧ ∀ x ∈ b, x < 256 :=
  chunks16Fuel_wf l.length l (le_refl _) h16 hb

theorem chunks16Fuel_of_blocks : ∀ (fuel : Nat) (blocks : List (List Nat)),
    blocks.length ≤ fuel → (∀ b ∈ blocks, b.length = 16) →
    chunks16Fuel fuel blocks.flatten = blocks
  | 0, blocks, hf, _ => by
    cases blocks with
    | nil => rfl
    | cons b rest => simp at hf
  | fuel + 1, blocks, hf, hwf => by
    cases blocks with
    | nil => rfl
    | cons b rest =>
      have hb16 : b.length = 16 := hwf b (by simp)
      show chunks16Fuel (fuel + 1) (b :: rest).flatten = b :: rest
      rw [List.flatten_cons]
      have hstep : chunks16Fuel (fuel + 1) (b ++ rest.flatten) =
          (b ++ rest.flatten).take 16 ::
            chunks16Fuel fuel ((b ++ rest.flatten).drop 16) := by
        cases hq : b ++ rest.flatten with
        | nil =>
          have := congrArg List.length hq
          simp [hb16] at this
        | cons q qs => rfl
      rw [hstep, List.take_left' hb16, List.drop_left' hb16,
        chunks16Fuel_of_blocks fuel rest (by simp at hf; omega)
          (fun v hv => hwf v (by simp [hv]))]

theorem pkcs7Pad_length_mod (bs : List Nat) : (pkcs7Pad bs).length % 16 = 0 := by
  simp only [pkcs7Pad, List.length_append, List.length_replicate]
  omega

theorem pkcs7Pad_lt (bs : List Nat) (hb : ∀ x ∈ bs, x < 256) :
    ∀ x ∈ pkcs7Pad bs, x < 256 := by
  intro x hx
  simp only [pkcs7Pad, List.mem_append, List.mem_replicate] at hx
  rcases hx with hx | ⟨_, rfl⟩
  · exact hb x hx
  · omega

theorem pkcs7Unpad_pkcs7Pad (bs : List Nat) : pkcs7Unpad (pkcs7Pad bs) = Except.ok bs := by
  have hp1 : 1 ≤ 16 - bs.length % 16 := by omega
  have hp16 : 16 - bs.length % 16 ≤ 16 := by omega
  have hlast : (pkcs7Pad bs).getLast?.getD 0 = 16 - bs.length % 16 := by
    simp only [pkcs7Pad]
    rw [show (16 - bs.length % 16) = (16 - bs.length % 16 - 1) + 1 by omega,
      List.replicate_succ', ← List.append_assoc, List.getLast?_concat]
    rfl
  have hlen : (pkcs7Pad bs).length = bs.length + (16 - bs.length % 16) := by
    simp [pkcs7Pad]
  rw [pkcs7Unpad, hlast]
  rw [if_pos]
  · rw [hlen, show bs.length + (16 - bs.length % 16) - (16 - bs.length % 16) =
      bs.length by omega]
    simp only [pkcs7Pad]
    rw [List.take_left]
  · refine ⟨hp1, hp16, by rw [hlen]; omega, ?_⟩
    rw [hlen, show bs.length + (16 - bs.length % 16) - (16 - bs.length % 16) =
      bs.length by omega]
    simp only [pkcs7Pad]
    rw [List.drop_left]

set_option maxRecDepth 2000 in
theorem hexVal_hexDigit (v : Nat) (h : v < 16) : hexVal (hexDigit v) = some v :=
  (by decide : ∀ w : Fin 16, hexVal (hexDigit w.val) = some w.val) ⟨v, h⟩

theorem hexDecode_hexBytes : ∀ (bs : List Nat), (∀ x ∈ bs, x < 256) →
    hexDecodeFuel ((bs.map hexByte).flatten).length ((bs.map hexByte).flatten) = bs
  | [], _ => rfl
  | b :: rest, h => by
    have hb : b < 256 := h b (by simp)
    show hexDecodeFuel _ (hexByte b ++ (rest.map hexByte).flatten) = b :: rest
    simp only [hexByte, List.cons_append, List.nil_append]
    show hexDecodeFuel ((hexByte b ++ (rest.map hexByte).flatten)).length
      (hexDigit (b / 16) :: hexDigit (b % 16) :: (rest.map hexByte).flatten) = b :: rest
    have hlenform : (hexByte b ++ (rest.map hexByte).flatten).length =
        ((rest.map hexByte).flatten).length + 1 + 1 := by
      simp [hexByte]
    rw [hlenform]
    show (match hexVal (hexDigit (b / 16)), hexVal (hexDigit (b % 16)) with
      | some hh, some ll => (16 * hh + ll) :: hexDecodeFuel ((rest.map hexByte).flatten).length
          ((rest.map hexByte).flatten)
      | _, _ => []) = b :: rest
    rw [hexVal_hexDigit (b / 16) (by omega), hexVal_hexDigit (b % 16) (by omega)]
    show (16 * (b / 16) + b % 16) :: hexDecodeFuel _ _ = b :: rest
    rw [show 16 * (b / 16) + b % 16 = b by omega,
      hexDecode_hexBytes rest (fun x hx => h x (by simp [hx]))]

theorem hexToBytes_hexOfBytes (bs : List Nat) (hb : ∀ x ∈ bs, x < 256) :
    hexToBytes (hexOfBytes bs) = bs := by
  show hexDecodeFuel (hexOfBytes bs).data.length (hexOfBytes bs).data = bs
  have hdata : (hexOfBytes bs).data = (bs.map hexByte).flatten := rfl
  rw [hdata]
  exact hexDecode_hexBytes bs hb

theorem splitColon_no_colon : ∀ (l : List Char), (∀ c ∈ l, c ≠ ':') →
    splitColon l = [l]
  | [], _ => rfl
  | c :: rest, h => by
    have hc : c ≠ ':' := h c (by simp)
    simp only [splitColon, if_neg hc,
      splitColon_no_colon rest (fun d hd => h d (by simp [hd]))]

theorem splitColon_append : ∀ (l1 l2 : List Char), (∀ c ∈ l1, c ≠ ':') →
    splitColon (l1 ++ ':' :: l2) = l1 :: splitColon l2
  | [], l2, _ => by
    simp [splitColon]
  | c :: rest, l2, h => by
    have hc : c ≠ ':' := h c (by simp)
    simp only [List.cons_append, splitColon, if_neg hc, List.append_eq]
    rw [splitColon_append rest l2 (fun d hd => h d (by simp [hd]))]

theorem hexDigit_ne_colon (v : Nat) (h : v < 16) : hexDigit v ≠ ':' :=
  (by decide : ∀ w : Fin 16, hexDigit w.val ≠ ':') ⟨v, h⟩

theorem hexOfBytes_no_colon (bs : List Nat) (hb : ∀ x ∈ bs, x < 256) :
    ∀ c ∈ (hexOfBytes bs).data, c ≠ ':' := by
  intro c hc
  have hdata : (hexOfBytes bs).data = (bs.map hexByte).flatten := rfl
  rw [hdata, List.mem_flatten] at hc
  obtain ⟨l, hl, hcl⟩ := hc
  rw [List.mem_map] at hl
  obtain ⟨b, hbm, rfl⟩ := hl
  have hblt : b < 256 := hb b hbm
  simp only [hexByte, List.mem_cons, List.not_mem_nil, or_false] at hcl
  rcases hcl with rfl | rfl
  · exact hexDigit_ne_colon _ (by omega)
  · exact hexDigit_ne_colon _ (by omega)

theorem intercalate_single (sep s : String) : String.intercalate sep [s] = s := by
  simp [String.intercalate, String.intercalate.go]

theorem char_toNat_lt (c : Char) : c.toNat < 1114112 := by
  have h := c.valid
  rcases h with h | ⟨h1, h2⟩
  · show c.val.toNat < 1114112
    omega
  · show c.val.toNat < 1114112
    omega

theorem utf8EncodeChar_lt (c : Char) : ∀ x ∈ utf8EncodeChar c, x < 256 := by
  have hc := char_toNat_lt c
  intro x hx
  simp only [utf8EncodeChar] at hx
  split at hx <;> [skip; split at hx] <;> [skip; skip; split at hx] <;>
    simp only [List.mem_cons, List.not_mem_nil, or_false] at hx <;>
    rcases hx with rfl | hx <;> first
      | omega
      | (rcases hx with rfl | hx <;> first
          | omega
          | (rcases hx with rfl | hx <;> first
              | omega
              | (rcases hx with rfl | hx <;> omega)))

theorem utf8Bytes_lt (s : String) : ∀ x ∈ utf8Bytes s, x < 256 := by
  intro x hx
  simp only [utf8Bytes, List.mem_flatten] at hx
  obtain ⟨l, hl, hxl⟩ := hx
  rw [List.mem_map] at hl
  obtain ⟨c, _, rfl⟩ := hl
  exact utf8EncodeChar_lt c x hxl

theorem b64Val_lt (c : Char) (v : Nat) (h : b64Val c = some v) : v < 64 := by
  simp only [b64Val] at h
  split_ifs at h <;> simp only [Option.some.injEq] at h <;> omega

theorem base64DecodeVals_lt : ∀ (fuel : Nat) (vals : List Nat),
    (∀ v ∈ vals, v < 64) → ∀ x ∈ base64DecodeVals fuel vals, x < 256
  | 0, vals, _ => by simp [base64DecodeVals]
  | fuel + 1, [], _ => by simp [base64DecodeVals]
  | fuel + 1, [a, b], h => by
    have ha := h a (by simp)
    have hb := h b (by simp)
    intro x hx
    simp only [base64DecodeVals, List.mem_cons, List.not_mem_nil, or_false] at hx
    subst hx
    omega
  | fuel + 1, [a, b, c], h => by
    have ha := h a (by simp)
    have hb := h b (by simp)
    have hc := h c (by simp)
    intro x hx
    simp only [base64DecodeVals, List.mem_cons, List.not_mem_nil, or_false] at hx
    rcases hx with rfl | rfl <;> omega
  | fuel + 1, [a], _ => by simp [base64DecodeVals]
  | fuel + 1, a :: b :: c :: d :: rest, h => by
    have ha := h a (by simp)
    have hb := h b (by simp)
    have hc := h c (by simp)
    have hd := h d (by simp)
    intro x hx
    simp only [base64DecodeVals, List.mem_cons] at hx
    rcases hx with rfl | rfl | rfl | hx
    · omega
    · omega
    · omega
    · exact base64DecodeVals_lt fuel rest
        (fun v hv => h v (by simp at hv ⊢; tauto)) x hx

theorem base64Decode_lt (s : String) : ∀ x ∈ base64Decode s, x < 256 := by
  intro x hx
  rw [base64Decode] at hx
  refine base64DecodeVals_lt _ _ ?_ x hx
  intro v hv
  rw [List.mem_filterMap] at hv
  obtain ⟨c, _, hc⟩ := hv
  exact b64Val_lt c v hc

theorem length_le_length_flatten : ∀ (blocks : List (List Nat)),
    (∀ b ∈ blocks, b.length = 16) → blocks.length ≤ blocks.flatten.length
  | [], _ => by simp
  | b :: rest, h => by
    simp only [List.flatten_cons, List.length_cons, List.length_append]
    have h16 : b.length = 16 := h b (by simp)
    have := length_le_length_flatten rest (fun v hv => h v (by simp [hv]))
    omega

theorem chunks16_of_blocks (blocks : List (List Nat))
    (h : ∀ b ∈ blocks, b.length = 16) :
    chunks16 blocks.flatten = blocks :=
  chunks16Fuel_of_blocks blocks.flatten.length blocks
    (length_le_length_flatten blocks h) h

theorem symmetricEncrypt_ok (text key : String) (iv : List Nat)
    (hk : (base64Decode key).length = 32) :
    symmetricEncrypt text key iv = Except.ok (hexOfBytes iv ++ ":" ++
      hexOfBytes ((cbcEncAux (keySchedule (base64Decode key)) iv
        (chunks16 (pkcs7Pad (utf8Bytes text)))).flatten)) := by
  simp only [symmetricEncrypt]
  rw [if_neg (by omega)]

theorem string_mk_data (s : String) : (⟨s.data⟩ : String) = s := rfl

theorem symmetricDecrypt_symmetricEncrypt (text key : String) (iv : List Nat)
    (hk : (base64Decode key).length = 32) (hiv : iv.length = 16)
    (hivb : ∀ x ∈ iv, x < 256) :
    ∀ ct, symmetricEncrypt text key iv = Except.ok ct →
      symmetricDecrypt ct key = Except.ok text := by
  intro ct hct
  rw [symmetricEncrypt_ok text key iv hk] at hct
  injection hct with hct
  subst hct
  have hkeys := keySchedule_wf (base64Decode key) hk (base64Decode_lt key)
  have hptmod := pkcs7Pad_length_mod (utf8Bytes text)
  have hptb := pkcs7Pad_lt (utf8Bytes text) (utf8Bytes_lt text)
  have hblocks := chunks16_wf (pkcs7Pad (utf8Bytes text)) hptmod hptb
  have hencwf := cbcEncAux_wf (keySchedule (base64Decode key)) hkeys
    (chunks16 (pkcs7Pad (utf8Bytes text))) iv hiv hivb hblocks
  have hctb : ∀ x ∈ (cbcEncAux (keySchedule (base64Decode key)) iv
      (chunks16 (pkcs7Pad (utf8Bytes text)))).flatten, x < 256 := by
    intro x hx
    rw [List.mem_flatten] at hx
    obtain ⟨b, hb, hxb⟩ := hx
    exact (hencwf b hb).2 x hxb
  simp only [symmetricDecrypt]
  rw [if_neg (by omega)]
  have hdata : (hexOfBytes iv ++ ":" ++
      hexOfBytes ((cbcEncAux (keySchedule (base64Decode key)) iv
        (chunks16 (pkcs7Pad (utf8Bytes text)))).flatten)).data =
      (hexOfBytes iv).data ++ ':' ::
        (hexOfBytes ((cbcEncAux (keySchedule (base64Decode key)) iv
          (chunks16 (pkcs7Pad (utf8Bytes text)))).flatten)).data := by
    simp [String.data_append]
  rw [hdata, splitColon_append _ _ (hexOfBytes_no_colon iv hivb),
    splitColon_no_colon _ (hexOfBytes_no_colon _ hctb)]
  simp only [List.headD_cons, List.tail_cons, List.map_cons, List.map_nil,
    string_mk_data, intercalate_single]
  have hivdec : hexDecodeFuel (hexOfBytes iv).data.length (hexOfBytes iv).data = iv :=
    hexToBytes_hexOfBytes iv hivb
  rw [hivdec, hexToBytes_hexOfBytes _ hctb,
    chunks16_of_blocks _ (fun b hb => (hencwf b hb).1),
    cbcDecAux_cbcEncAux (keySchedule (base64Decode key)) hkeys
      (chunks16 (pkcs7Pad (utf8Bytes text))) iv hiv hivb hblocks,
    chunks16_flatten, pkcs7Unpad_pkcs7Pad]
  show Except.ok (utf8ToString (utf8Bytes text)) = Except.ok text
  rw [utf8ToString_utf8Bytes]

theorem symmetric_bad_key (text key : String) (iv : List Nat)
    (hk : (base64Decode key).length ≠ 32) :
    symmetricEncrypt text key iv = Except.error
      ("Invalid key length: expected 32 bytes, got " ++ toString (base64Decode key).length) ∧
    symmetricDecrypt text key = Except.error
      ("Invalid key length: expected 32 bytes, got " ++ toString (base64Decode key).length) := by
  constructor
  · simp only [symmetricEncrypt]
    rw [if_pos hk]
  · simp only [symmetricDecrypt]
    rw [if_pos hk]

/-- C10: for every text and every key whose base64 decoding is exactly 32
bytes, decrypting the encryption of the text under the same key (any 16-byte
IV) returns the text; for a key whose decoding is not 32 bytes, both
functions throw. -/
theorem symmetricCrypto_roundtrip_and_key_check (text key : String) (iv : List Nat) :
    ((base64Decode key).length = 32 → iv.length = 16 → (∀ x ∈ iv, x < 256) →
      ∀ ct, symmetricEncrypt text key iv = Except.ok ct →
        symmetricDecrypt ct key = Except.ok text) ∧
    ((base64Decode key).length ≠ 32 →
      (∃ e, symmetricEncrypt text key iv = Except.error e) ∧
      (∃ e, symmetricDecrypt text key = Except.error e)) := by
  constructor
  · intro hk hiv hivb
    exact symmetricDecrypt_symmetricEncrypt text key iv hk hiv hivb
  · intro hk
    obtain ⟨h1, h2⟩ := symmetric_bad_key text key iv hk
    exact ⟨⟨_, h1⟩, ⟨_, h2⟩⟩

/-- Witness for C10: a full encrypt-then-decrypt round trip at a concrete
key, IV and text, plus the throw on a short key. -/
theorem symmetricCrypto_roundtrip_and_key_check_witness :
    (base64Decode c10Key).length = 32 ∧
    symmetricDecrypt ((symmetricEncrypt "otp secret" c10Key c10Iv).toOption.getD "")
      c10Key = Except.ok "otp secret" ∧
    (base64Decode "c2hvcnQ=").length ≠ 32 ∧
    (∃ e, symmetricEncrypt "otp secret" "c2hvcnQ=" c10Iv = Except.error e) := by
  refine ⟨by decide, ?_, by decide, ?_⟩
  · exact (symmetricCrypto_roundtrip_and_key_check "otp secret" c10Key c10Iv).1
      (by decide) (by decide) (by decide) _ (by rfl)
  · exact ((symmetricCrypto_roundtrip_and_key_check "otp secret" "c2hvcnQ=" c10Iv).2
      (by decide)).1
